import Mathlib

/-!
# Verification of the wander-rs interpreter core

Shallow embedding of the wander-rs pipeline (lexing, parsing with a
backtracking cursor, translation, tree-walking evaluation over a scoped
bindings environment) and proofs about the behaviours its specification
claims.

Conventions of the embedding:

* Rust functions that can panic (`panic!`, `todo!`, `.unwrap()` on `None`/`Err`)
  are represented with an explicit `panic` result; fallible functions return an
  `err` result carrying `WanderError`.
* The evaluator and the recursive-descent parser are not structurally
  recursive (the language permits unbounded nesting and the application loop
  re-pushes expressions), so they take an explicit fuel argument; exhausting
  fuel yields a dedicated `outOfFuel` result (or a parse no-match), which is an
  artifact of the embedding, never identified with a real result.
* Rust's `HashMap`/`HashSet` are modelled as association lists with
  insert-overwrite semantics (`alistInsert`) and lists with membership-guarded
  insertion; the claims under study never depend on iteration order.
* `&mut` state threading is made explicit: evaluation returns the updated
  `Bindings` next to the produced value.
* Error message strings keep the static text of the Rust `format!` calls;
  interpolated debug/display renderings of runtime values are omitted.
* The source snapshot mixes revisions: `parser.rs` names the pipe marker
  `Pipe` while `translation.rs` and the tests name it `Forward` (we use
  `forward`), and `bindings.rs`'s `bind_host_function` constructs the
  `lib.rs` revision of `WanderValue`/`Element` whose `Lambda` carries
  `WanderType` tags (embedded separately as `LibValue`/`LibElement`).
-/

set_option maxHeartbeats 1000000

namespace Wander

/-- `WanderError(pub String)` from `lib.rs`: the single flat error kind. -/
structure WanderError where
  message : String
deriving DecidableEq, Repr

/-- Identifier from the (missing) `identifier.rs` module, an opaque wrapper
around its textual form; no claim inspects it. -/
structure Identifier where
  id : String
deriving DecidableEq, Repr

/-- `WanderType` from `lib.rs`: descriptive type tags for bindings. -/
inductive WanderType where
  | any : WanderType
  | boolean : WanderType
  | int : WanderType
  | string : WanderType
  | nothing : WanderType
  | lambda : WanderType
  | list : WanderType
  | tuple : WanderType
  | optional : WanderType → WanderType
deriving DecidableEq, Repr

/-- Tokens produced by the lexer. The variant set is taken from the matches in
`parser.rs` (the `lexer.rs` module itself is not in the source snapshot). -/
inductive Token where
  | boolean : Bool → Token
  | int : Int → Token
  | string : String → Token
  | name : String → Token
  | letT : Token
  | inT : Token
  | endT : Token
  | ifT : Token
  | thenT : Token
  | elseT : Token
  | val : Token
  | lambda : Token
  | arrow : Token
  | pipe : Token
  | openParen : Token
  | closeParen : Token
  | openSquare : Token
  | closeSquare : Token
  | openBrace : Token
  | closeBrace : Token
  | colon : Token
  | equalSign : Token
  | hash : Token
  | singleQuote : Token
  | questionMark : Token
  | nothing : Token
deriving DecidableEq, Repr

/-- Association-list model of `HashMap` insertion (overwrite on key hit). -/
def alistInsert (k : String) (v : α) : List (String × α) → List (String × α)
  | [] => [(k, v)]
  | (k', v') :: rest =>
    if k = k' then (k, v) :: rest else (k', v') :: alistInsert k v rest

/-- Association-list model of `HashMap::get`. -/
def alistGet (k : String) : List (String × α) → Option α
  | [] => none
  | (k', v) :: rest => if k = k' then some v else alistGet k rest

/-- Model of Rust's `str::split(sep)` on character lists: always returns at
least one (possibly empty) segment. -/
def splitChar (sep : Char) : List Char → List (List Char)
  | [] => [[]]
  | c :: rest =>
    let r := splitChar sep rest
    if c = sep then [] :: r
    else
      match r with
      | g :: gs => (c :: g) :: gs
      | [] => [[c]]

/-- `Element` from `parser.rs`: the raw AST the parser produces. The pipe
marker is called `Pipe` in `parser.rs` and `Forward` in `translation.rs` and
the tests (mixed revisions of the same unit variant); we use `forward`. -/
inductive Element where
  | boolean : Bool → Element
  | int : Int → Element
  | string : String → Element
  | name : String → Element
  | taggedName : String → Element → Element
  | hostFunction : String → Element
  | letE : List (String × Option String × Element) → Element → Element
  | grouping : List Element → Element
  | conditional : Element → Element → Element → Element
  | lambda : String → Option String → Option String → Element → Element
  | tuple : List Element → Element
  | list : List Element → Element
  | set : List Element → Element
  | record : List (String × Element) → Element
  | nothing : Element
  | forward : Element
deriving Repr

/-- `Expression` from `interpreter.rs`: the post-translation tree the
evaluator walks. A `lambda` keeps its body as an unevaluated `Element`. -/
inductive Expression where
  | boolean : Bool → Expression
  | int : Int → Expression
  | string : String → Expression
  | identifier : Identifier → Expression
  | name : String → Expression
  | taggedName : String → Expression → Expression
  | hostFunction : String → Expression
  | letE : List (String × Option Expression × Expression) → Expression → Expression
  | application : List Expression → Expression
  | conditional : Expression → Expression → Expression → Expression
  | lambda : String → Option String → Option String → Element → Expression
  | tuple : List Expression → Expression
  | list : List Expression → Expression
  | set : List Expression → Expression
  | record : List (String × Expression) → Expression
  | nothing : Expression
deriving Repr

/-- `WanderValue` as matched by `interpreter.rs` (the revision with `Bool`,
`Identifier` and `Option String` lambda tags), generic over the host type. -/
inductive WanderValue (T : Type) where
  | bool : Bool → WanderValue T
  | int : Int → WanderValue T
  | string : String → WanderValue T
  | identifier : Identifier → WanderValue T
  | nothing : WanderValue T
  | lambda : String → Option String → Option String → Element → WanderValue T
  | list : List (WanderValue T) → WanderValue T
  | tuple : List (WanderValue T) → WanderValue T
  | set : List (WanderValue T) → WanderValue T
  | record : List (String × WanderValue T) → WanderValue T
  | hostValue : T → WanderValue T
deriving Repr

/-- A host function: its `HostFunctionBinding` metadata (qualified name and
named parameters) together with its `run` implementation. The `&Bindings`
argument Rust passes to `run` is not modelled: no host function involved in
the claims reads the environment beyond the arguments the interpreter already
extracts for it. -/
structure HostFunction (T : Type) where
  name : String
  parameters : List (String × WanderType)
  doc : String
  run : List (WanderValue T) → Except WanderError (WanderValue T)

/-- Token transformer type alias from `lib.rs`. -/
def TokenTransformer := List Token → Except WanderError (List Token)

/-- `Bindings` from `bindings.rs`, generic over the stored value type `V` and
the host-function entry type `H` (the source snapshot instantiates it with
two different `WanderValue` revisions). `scopes` is kept in Rust `Vec` order:
the innermost scope is the last element. -/
structure Bindings (V H : Type) where
  tokenTransformers : List (String × TokenTransformer)
  hostFunctions : List (String × H)
  scopes : List (List (String × V))

/-- `Bindings::new`. -/
def Bindings.new : Bindings V H :=
  { tokenTransformers := [], hostFunctions := [], scopes := [[]] }

/-- `Bindings::add_scope`. -/
def Bindings.add_scope (b : Bindings V H) : Bindings V H :=
  { b with scopes := b.scopes ++ [[]] }

/-- `Bindings::remove_scope` (`Vec::pop`: drop the last scope, no-op when
empty). -/
def Bindings.remove_scope (b : Bindings V H) : Bindings V H :=
  { b with scopes := b.scopes.dropLast }

/-- The scope walk of `Bindings::read`: innermost (last) scope first. -/
def readScopes (name : String) : List (List (String × V)) → Option V
  | [] => none
  | scope :: rest =>
    match alistGet name scope with
    | some v => some v
    | none => readScopes name rest

/-- `Bindings::read`: walk the scope stack from index `len-1` down to `0`. -/
def Bindings.read (b : Bindings V H) (name : String) : Option V :=
  readScopes name b.scopes.reverse

/-- `Bindings::bind`: pop the current (last) scope, insert, push it back.
The `.unwrap()` on the pop panics when the scope stack is empty, modelled as
`none`. -/
def Bindings.bind (b : Bindings V H) (name : String) (value : V) :
    Option (Bindings V H) :=
  match b.scopes.getLast? with
  | none => none
  | some scope =>
    some { b with scopes := b.scopes.dropLast ++ [alistInsert name value scope] }

/-- `Bindings::read_host_function`. -/
def Bindings.read_host_function (b : Bindings V H) (name : String) : Option H :=
  alistGet name b.hostFunctions


/-- Result of running embedded interpreter code: a produced value, a
propagated `WanderError`, a Rust panic (`panic!`/`todo!`/failed `unwrap`), or
exhaustion of the embedding's fuel. -/
inductive PRes (α : Type) where
  | ok : α → PRes α
  | err : WanderError → PRes α
  | panic : PRes α
  | outOfFuel : PRes α
deriving Repr

/-- One step of `unescape_string`'s character loop: state is the accumulated
result and `last_char`. `none` is the `todo!()` on an unknown escape. -/
def unescapeStep : List Char × Char → Char → Option (List Char × Char)
  | (res, last), c =>
    if last = '\\' then
      if c = 'n' then some (res ++ ['\n'], c)
      else if c = '\\' then some (res ++ ['\\'], ' ')
      else if c = 't' then some (res ++ ['\t'], c)
      else if c = '"' then some (res ++ [c], c)
      else none
    else if c = '\\' then some (res, c)
    else some (res ++ [c], c)

/-- The character loop of `unescape_string` (the `for_each` with mutable
state, aborted by the `todo!()`). -/
def unescapeLoop : List Char → List Char × Char → Option (List Char × Char)
  | [], st => some st
  | c :: cs, st =>
    match unescapeStep st c with
    | some st' => unescapeLoop cs st'
    | none => none

/-- `unescape_string` from `interpreter.rs`: fold the escape state machine
over the characters; a trailing backslash is a `panic!()`, an unknown escape a
`todo!()` — both `none`. -/
def unescape_string (value : String) : Option String :=
  match unescapeLoop value.data ([], ' ') with
  | none => none
  | some (res, last) => if last = '\\' then none else some ⟨res⟩

/-- Rust `str::replace` of a single-character pattern, on character lists. -/
def replaceChar (target : Char) (rep : List Char) : List Char → List Char
  | [] => []
  | c :: rest => (if c = target then rep else [c]) ++ replaceChar target rep rest

/-- `write_string` from `lib.rs`: escape backslash, quote, newline, carriage
return and tab (in that chained order), then wrap in double quotes. -/
def write_string (s : String) : String :=
  let cs := s.data
  let cs := replaceChar '\\' ['\\', '\\'] cs
  let cs := replaceChar '"' ['\\', '"'] cs
  let cs := replaceChar '\n' ['\\', 'n'] cs
  let cs := replaceChar '\r' ['\\', 'r'] cs
  let cs := replaceChar '\t' ['\\', 't'] cs
  ⟨'"' :: (cs ++ ['"'])⟩

/-- The field walk inside `read_field`: `result` is the loop accumulator,
`value` the fields of the record the base name resolved to. A missing field
on a *nested* record is `r.get(field).unwrap()` — a panic. -/
def readFieldLoop (base : String) (value : List (String × WanderValue T)) :
    List String → Option (WanderValue T) → PRes (WanderValue T)
  | [], result =>
    match result with
    | some r => .ok r
    | none => .panic
  | field :: rest, result =>
    match result with
    | some (.record r) =>
      match alistGet field r with
      | some v => readFieldLoop base value rest (some v)
      | none => .panic
    | some _ => .err ⟨"Could not access field " ++ field⟩
    | none =>
      match alistGet field value with
      | some r => readFieldLoop base value rest (some r)
      | none => .err ⟨"Could not read field " ++ base⟩

/-- `read_field` from `interpreter.rs`: split the dotted name, require the
first segment to be bound to a record, then walk the remaining segments. -/
def read_field (name : String) (environment : Bindings (WanderValue T) (HostFunction T)) :
    PRes (WanderValue T) :=
  match (splitChar '.' name.data).map (fun cs => String.mk cs) with
  | [] => .panic
  | base :: fields =>
    match environment.read base with
    | some (.record value) => readFieldLoop base value fields none
    | _ => .err ⟨"Error looking up " ++ base⟩

/-- `read_name` from `interpreter.rs`: scope stack, then host-function table
(hitting a host function is a `todo!()`), then dotted-field projection. -/
def read_name (name : String) (environment : Bindings (WanderValue T) (HostFunction T)) :
    PRes (WanderValue T) :=
  match environment.read name with
  | some value => .ok value
  | none =>
    match environment.read_host_function name with
    | some _ => .panic
    | none => read_field name environment

/-- `read_tagged_name` from `interpreter.rs`: identical to `read_name`, the
tag is ignored. -/
def read_tagged_name (name : String) (_tag : Expression)
    (environment : Bindings (WanderValue T) (HostFunction T)) :
    PRes (WanderValue T) :=
  match environment.read name with
  | some value => .ok value
  | none =>
    match environment.read_host_function name with
    | some _ => .panic
    | none => read_field name environment

/-- Argument collection inside `handle_host_function`: read each declared
parameter name back out of the environment. -/
def collectHostArguments (environment : Bindings (WanderValue T) (HostFunction T)) :
    List (String × WanderType) → Except WanderError (List (WanderValue T))
  | [] => .ok []
  | (name, _) :: rest =>
    match environment.read name with
    | some value =>
      match collectHostArguments environment rest with
      | .ok values => .ok (value :: values)
      | .error e => .error e
    | none => .error ⟨"Could not read " ++ name⟩

/-- `handle_host_function` from `interpreter.rs`: the `.unwrap()` on the
registry lookup panics when the name is unregistered. -/
def handle_host_function (name : String)
    (environment : Bindings (WanderValue T) (HostFunction T)) :
    PRes (WanderValue T) :=
  match environment.read_host_function name with
  | none => .panic
  | some hostFunction =>
    match collectHostArguments environment hostFunction.parameters with
    | .ok arguments =>
      match hostFunction.run arguments with
      | .ok value => .ok value
      | .error e => .err e
    | .error e => .err e

mutual

/-- `value_to_expression` from `interpreter.rs`; `HostValue` is a `todo!()`.
Fuel-indexed because values nest through lists. -/
def value_to_expression : Nat → WanderValue T → PRes Expression
  | 0, _ => .outOfFuel
  | n + 1, value =>
    match value with
    | .bool b => .ok (.boolean b)
    | .int i => .ok (.int i)
    | .string s => .ok (.string s)
    | .identifier i => .ok (.identifier i)
    | .nothing => .ok .nothing
    | .lambda p i o b => .ok (.lambda p i o b)
    | .list values =>
      match valuesToExpressions n values with
      | .ok es => .ok (.list es)
      | .err e => .err e
      | .panic => .panic
      | .outOfFuel => .outOfFuel
    | .tuple values =>
      match valuesToExpressions n values with
      | .ok es => .ok (.tuple es)
      | .err e => .err e
      | .panic => .panic
      | .outOfFuel => .outOfFuel
    | .set values =>
      match valuesToExpressions n values with
      | .ok es => .ok (.set es)
      | .err e => .err e
      | .panic => .panic
      | .outOfFuel => .outOfFuel
    | .record fields =>
      match recordValuesToExpressions n fields with
      | .ok es => .ok (.record es)
      | .err e => .err e
      | .panic => .panic
      | .outOfFuel => .outOfFuel
    | .hostValue _ => .panic

/-- Elementwise `value_to_expression` over a collection. -/
def valuesToExpressions : Nat → List (WanderValue T) → PRes (List Expression)
  | 0, _ => .outOfFuel
  | n + 1, values =>
    match values with
    | [] => .ok []
    | v :: rest =>
      match value_to_expression n v with
      | .ok e =>
        match valuesToExpressions n rest with
        | .ok es => .ok (e :: es)
        | .err e' => .err e'
        | .panic => .panic
        | .outOfFuel => .outOfFuel
      | .err e' => .err e'
      | .panic => .panic
      | .outOfFuel => .outOfFuel

/-- Fieldwise `value_to_expression` over a record. -/
def recordValuesToExpressions :
    Nat → List (String × WanderValue T) → PRes (List (String × Expression))
  | 0, _ => .outOfFuel
  | n + 1, fields =>
    match fields with
    | [] => .ok []
    | (name, v) :: rest =>
      match value_to_expression n v with
      | .ok e =>
        match recordValuesToExpressions n rest with
        | .ok es => .ok ((name, e) :: es)
        | .err e' => .err e'
        | .panic => .panic
        | .outOfFuel => .outOfFuel
      | .err e' => .err e'
      | .panic => .panic
      | .outOfFuel => .outOfFuel

end


/-- The equality test `element == &Element::Forward` from `process_forwards`
(full structural equality against a unit variant is a discriminant check). -/
def Element.isForward : Element → Bool
  | .forward => true
  | _ => false

/-- The accumulator loop of `process_forwards` over a grouping's elements:
`results` holds rewritten output, `to_move` the terms accumulated to the left
of a forward marker, which are appended after the following terms. -/
def pfLoop : List Element → List Element → List Element → List Element
  | [], results, to_move =>
    results ++
      (match to_move with
       | [] => []
       | [x] => [x]
       | xs => [.grouping xs])
  | e :: rest, results, to_move =>
    if e.isForward then
      match to_move with
      | [] => pfLoop rest [] results
      | [x] => pfLoop rest (results ++ [x]) []
      | xs => pfLoop rest (results ++ [.grouping xs]) []
    else pfLoop rest (results ++ [e]) to_move

/-- `process_forwards` from `translation.rs`: rewrite `a >> b` sequences in a
top-level `Grouping`; any other element passes through unchanged. -/
def process_forwards (element : Element) : Except WanderError Element :=
  match element with
  | .grouping elements => .ok (.grouping (pfLoop elements [] []))
  | e => .ok e

mutual

/-- `express` from `translation.rs`: the Element→Expression homomorphism.
Recursive results are `.unwrap()`ed in the source, so an inner error is a
panic; only a direct `Forward` returns the translation error. -/
def express : Nat → Element → PRes Expression
  | 0, _ => .outOfFuel
  | n + 1, element =>
    match element with
    | .boolean b => .ok (.boolean b)
    | .int i => .ok (.int i)
    | .string s => .ok (.string s)
    | .name name => .ok (.name name)
    | .letE decls body =>
      match expressDecls n decls with
      | .ok ds =>
        match express n body with
        | .ok b => .ok (.letE ds b)
        | .err _ => .panic
        | .panic => .panic
        | .outOfFuel => .outOfFuel
      | .err _ => .panic
      | .panic => .panic
      | .outOfFuel => .outOfFuel
    | .grouping elements => handle_grouping n elements
    | .conditional c i e =>
      match express n c, express n i, express n e with
      | .ok c', .ok i', .ok e' => .ok (.conditional c' i' e')
      | .outOfFuel, _, _ => .outOfFuel
      | _, .outOfFuel, _ => .outOfFuel
      | _, _, .outOfFuel => .outOfFuel
      | _, _, _ => .panic
    | .lambda p i o b => .ok (.lambda p i o b)
    | .tuple values =>
      match expressAll n values with
      | .ok es => .ok (.tuple es)
      | .err _ => .panic
      | .panic => .panic
      | .outOfFuel => .outOfFuel
    | .list values =>
      match expressAll n values with
      | .ok es => .ok (.list es)
      | .err _ => .panic
      | .panic => .panic
      | .outOfFuel => .outOfFuel
    | .set values =>
      match expressAll n values with
      | .ok es => .ok (.set es)
      | .err _ => .panic
      | .panic => .panic
      | .outOfFuel => .outOfFuel
    | .record fields =>
      match expressRecord n fields with
      | .ok es => .ok (.record es)
      | .err _ => .panic
      | .panic => .panic
      | .outOfFuel => .outOfFuel
    | .nothing => .ok .nothing
    | .forward => .err ⟨"Cannot process pipe, Should never reach."⟩
    | .hostFunction name => .ok (.hostFunction name)
    | .taggedName name inner =>
      match express n inner with
      | .ok e => .ok (.taggedName name e)
      | .err _ => .panic
      | .panic => .panic
      | .outOfFuel => .outOfFuel

/-- `express` mapped over a let's declarations. `translation.rs` builds each
declaration from the name and the `express`ed (`.unwrap()`ed) body only; the
optional tag slot of the interpreter's `Let` is left empty. -/
def expressDecls :
    Nat → List (String × Option String × Element) →
    PRes (List (String × Option Expression × Expression))
  | 0, _ => .outOfFuel
  | n + 1, decls =>
    match decls with
    | [] => .ok []
    | (name, _tag, body) :: rest =>
      match express n body with
      | .ok b =>
        match expressDecls n rest with
        | .ok ds => .ok ((name, none, b) :: ds)
        | .err _ => .panic
        | .panic => .panic
        | .outOfFuel => .outOfFuel
      | .err _ => .panic
      | .panic => .panic
      | .outOfFuel => .outOfFuel

/-- `express` mapped over a collection's elements (`.unwrap()`ed). -/
def expressAll : Nat → List Element → PRes (List Expression)
  | 0, _ => .outOfFuel
  | n + 1, elements =>
    match elements with
    | [] => .ok []
    | e :: rest =>
      match express n e with
      | .ok e' =>
        match expressAll n rest with
        | .ok es => .ok (e' :: es)
        | .err _ => .panic
        | .panic => .panic
        | .outOfFuel => .outOfFuel
      | .err _ => .panic
      | .panic => .panic
      | .outOfFuel => .outOfFuel

/-- `express` mapped over a record's fields (`.unwrap()`ed). -/
def expressRecord : Nat → List (String × Element) → PRes (List (String × Expression))
  | 0, _ => .outOfFuel
  | n + 1, fields =>
    match fields with
    | [] => .ok []
    | (name, e) :: rest =>
      match express n e with
      | .ok e' =>
        match expressRecord n rest with
        | .ok es => .ok ((name, e') :: es)
        | .err _ => .panic
        | .panic => .panic
        | .outOfFuel => .outOfFuel
      | .err _ => .panic
      | .panic => .panic
      | .outOfFuel => .outOfFuel

/-- `handle_grouping` from `translation.rs`: `express` every element
(`.unwrap()`ed), collapse one-element `Application`s, then a one-element
grouping collapses to its content and anything else becomes an
`Application`. -/
def handle_grouping : Nat → List Element → PRes Expression
  | 0, _ => .outOfFuel
  | n + 1, elements =>
    match expressAll n elements with
    | .ok expressions =>
      let expressions := expressions.map fun e =>
        match e with
        | .application application =>
          match application with
          | [single] => single
          | _ => e
        | e => e
      match expressions with
      | [single] => .ok single
      | _ => .ok (.application expressions)
    | .err _ => .panic
    | .panic => .panic
    | .outOfFuel => .outOfFuel

end

/-- `translate` from `translation.rs`: `process_forwards` then `express`. -/
def translate (n : Nat) (element : Element) : PRes Expression :=
  match process_forwards element with
  | .ok element => express n element
  | .error e => .err e


/-- Result of `run_lambda`: `val`/`errR` are `Some(Ok)`/`Some(Err)` (return
to the application loop's caller, with the mutated environment for `val`),
`cont` is `None` (continue the loop with the updated expression stack and
environment). -/
inductive RLRes (T : Type) where
  | val : Bindings (WanderValue T) (HostFunction T) → WanderValue T → RLRes T
  | errR : WanderError → RLRes T
  | cont : List Expression → Bindings (WanderValue T) (HostFunction T) → RLRes T
  | panic : RLRes T
  | outOfFuel : RLRes T

mutual

/-- `eval` from `interpreter.rs`: dispatch over every `Expression` variant.
String literals run through `unescape_string` (whose `todo!()`/`panic!()` is
a panic here). -/
def eval : Nat → Expression → Bindings (WanderValue T) (HostFunction T) →
    PRes (Bindings (WanderValue T) (HostFunction T) × WanderValue T)
  | 0, _, _ => .outOfFuel
  | n + 1, expression, environment =>
    match expression with
    | .boolean value => .ok (environment, .bool value)
    | .int value => .ok (environment, .int value)
    | .string value =>
      match unescape_string value with
      | some s => .ok (environment, .string s)
      | none => .panic
    | .identifier value => .ok (environment, .identifier value)
    | .letE decls body => handle_let n decls body environment
    | .name name =>
      match read_name name environment with
      | .ok value => .ok (environment, value)
      | .err e => .err e
      | .panic => .panic
      | .outOfFuel => .outOfFuel
    | .taggedName name tag =>
      match read_tagged_name name tag environment with
      | .ok value => .ok (environment, value)
      | .err e => .err e
      | .panic => .panic
      | .outOfFuel => .outOfFuel
    | .application expressions => handle_function_call n expressions environment
    | .conditional c i e => handle_conditional n c i e environment
    | .list values => handle_list n values environment
    | .nothing => .ok (environment, .nothing)
    | .tuple values => handle_tuple n values environment
    | .record values => handle_record n values environment
    | .lambda name input output body =>
      .ok (environment, .lambda name input output body)
    | .set values => handle_set n values environment
    | .hostFunction name =>
      match handle_host_function name environment with
      | .ok value => .ok (environment, value)
      | .err e => .err e
      | .panic => .panic
      | .outOfFuel => .outOfFuel

/-- `handle_let` from `interpreter.rs`: evaluate and bind every declaration
in order into the current scope, then evaluate the body in the same
environment. No scope is pushed or popped. -/
def handle_let : Nat → List (String × Option Expression × Expression) →
    Expression → Bindings (WanderValue T) (HostFunction T) →
    PRes (Bindings (WanderValue T) (HostFunction T) × WanderValue T)
  | 0, _, _, _ => .outOfFuel
  | n + 1, decls, body, environment =>
    match decls with
    | [] => eval n body environment
    | (name, tag, declBody) :: rest =>
      match handle_decl n name tag declBody environment with
      | .ok environment => handle_let n rest body environment
      | .err e => .err e
      | .panic => .panic
      | .outOfFuel => .outOfFuel

/-- `handle_decl` from `interpreter.rs`: evaluate the declaration's body and
bind the result under the name (tag checking is an unimplemented TODO in the
source). -/
def handle_decl : Nat → String → Option Expression → Expression →
    Bindings (WanderValue T) (HostFunction T) →
    PRes (Bindings (WanderValue T) (HostFunction T))
  | 0, _, _, _, _ => .outOfFuel
  | n + 1, name, _tag, body, environment =>
    match eval n body environment with
    | .ok (environment, value) =>
      match environment.bind name value with
      | some environment => .ok environment
      | none => .panic
    | .err e => .err e
    | .panic => .panic
    | .outOfFuel => .outOfFuel

/-- `handle_conditional` from `interpreter.rs`: evaluate the condition; a
`Bool` selects exactly one branch, anything else is a type error. -/
def handle_conditional : Nat → Expression → Expression → Expression →
    Bindings (WanderValue T) (HostFunction T) →
    PRes (Bindings (WanderValue T) (HostFunction T) × WanderValue T)
  | 0, _, _, _, _ => .outOfFuel
  | n + 1, cond, ife, elsee, environment =>
    match eval n cond environment with
    | .ok (environment, .bool true) => eval n ife environment
    | .ok (environment, .bool false) => eval n elsee environment
    | .ok (_, _) => .err ⟨"Conditionals require a bool value found"⟩
    | .err e => .err e
    | .panic => .panic
    | .outOfFuel => .outOfFuel

/-- `handle_list` from `interpreter.rs`: evaluate elements left to right,
fail fast. -/
def handle_list : Nat → List Expression →
    Bindings (WanderValue T) (HostFunction T) →
    PRes (Bindings (WanderValue T) (HostFunction T) × WanderValue T)
  | 0, _, _ => .outOfFuel
  | n + 1, expressions, environment =>
    match evalValues n expressions environment with
    | .ok (environment, values) => .ok (environment, .list values)
    | .err e => .err e
    | .panic => .panic
    | .outOfFuel => .outOfFuel

/-- `handle_tuple` from `interpreter.rs`. -/
def handle_tuple : Nat → List Expression →
    Bindings (WanderValue T) (HostFunction T) →
    PRes (Bindings (WanderValue T) (HostFunction T) × WanderValue T)
  | 0, _, _ => .outOfFuel
  | n + 1, expressions, environment =>
    match evalValues n expressions environment with
    | .ok (environment, values) => .ok (environment, .tuple values)
    | .err e => .err e
    | .panic => .panic
    | .outOfFuel => .outOfFuel

/-- `handle_set` from `interpreter.rs`: evaluate all members and insert into
the result set (`HashSet::insert` deduplicates; membership itself is not
consulted by any claim, so insertion is modelled as appending). -/
def handle_set : Nat → List Expression →
    Bindings (WanderValue T) (HostFunction T) →
    PRes (Bindings (WanderValue T) (HostFunction T) × WanderValue T)
  | 0, _, _ => .outOfFuel
  | n + 1, expressions, environment =>
    match evalValues n expressions environment with
    | .ok (environment, values) => .ok (environment, .set values)
    | .err e => .err e
    | .panic => .panic
    | .outOfFuel => .outOfFuel

/-- `handle_record` from `interpreter.rs`: evaluate every field expression,
fail fast, insert into the result record. -/
def handle_record : Nat → List (String × Expression) →
    Bindings (WanderValue T) (HostFunction T) →
    PRes (Bindings (WanderValue T) (HostFunction T) × WanderValue T)
  | 0, _, _ => .outOfFuel
  | n + 1, fields, environment =>
    match evalRecordValues n fields [] environment with
    | .ok (environment, values) => .ok (environment, .record values)
    | .err e => .err e
    | .panic => .panic
    | .outOfFuel => .outOfFuel

/-- The shared evaluate-each-element loop of the collection handlers. -/
def evalValues : Nat → List Expression →
    Bindings (WanderValue T) (HostFunction T) →
    PRes (Bindings (WanderValue T) (HostFunction T) × List (WanderValue T))
  | 0, _, _ => .outOfFuel
  | n + 1, expressions, environment =>
    match expressions with
    | [] => .ok (environment, [])
    | e :: rest =>
      match eval n e environment with
      | .ok (environment, value) =>
        match evalValues n rest environment with
        | .ok (environment, values) => .ok (environment, value :: values)
        | .err e' => .err e'
        | .panic => .panic
        | .outOfFuel => .outOfFuel
      | .err e' => .err e'
      | .panic => .panic
      | .outOfFuel => .outOfFuel

/-- The field-evaluation loop of `handle_record`, accumulating with
`HashMap::insert` semantics. -/
def evalRecordValues : Nat → List (String × Expression) →
    List (String × WanderValue T) →
    Bindings (WanderValue T) (HostFunction T) →
    PRes (Bindings (WanderValue T) (HostFunction T) × List (String × WanderValue T))
  | 0, _, _, _ => .outOfFuel
  | n + 1, fields, results, environment =>
    match fields with
    | [] => .ok (environment, results)
    | (name, e) :: rest =>
      match eval n e environment with
      | .ok (environment, value) =>
        evalRecordValues n rest (alistInsert name value results) environment
      | .err e' => .err e'
      | .panic => .panic
      | .outOfFuel => .outOfFuel

/-- `handle_function_call` from `interpreter.rs`: a one-element application
evaluates its content directly; otherwise the source reverses the vector and
pops from its end, which is processing the expressions front to back — the
`fcLoop` stack below is that vector seen top-of-stack first. -/
def handle_function_call : Nat → List Expression →
    Bindings (WanderValue T) (HostFunction T) →
    PRes (Bindings (WanderValue T) (HostFunction T) × WanderValue T)
  | 0, _, _ => .outOfFuel
  | n + 1, expressions, environment =>
    match expressions with
    | [expression] => eval n expression environment
    | _ => fcLoop n expressions environment

/-- The `while let Some(expression) = expressions.pop()` loop of
`handle_function_call`; running off the end of the stack is the trailing
`panic!()`. -/
def fcLoop : Nat → List Expression →
    Bindings (WanderValue T) (HostFunction T) →
    PRes (Bindings (WanderValue T) (HostFunction T) × WanderValue T)
  | 0, _, _ => .outOfFuel
  | n + 1, stack, environment =>
    match stack with
    | [] => .panic
    | expression :: rest =>
      match expression with
      | .application contents =>
        match handle_function_call n contents environment with
        | .ok (environment, .lambda name input output element) =>
          match run_lambda n name input output element rest environment with
          | .val environment value => .ok (environment, value)
          | .errR e => .err e
          | .cont stack environment => fcLoop n stack environment
          | .panic => .panic
          | .outOfFuel => .outOfFuel
        | .ok (environment, value) => .ok (environment, value)
        | .err e => .err e
        | .panic => .panic
        | .outOfFuel => .outOfFuel
      | .lambda name input output lambdaBody =>
        match run_lambda n name input output lambdaBody rest environment with
        | .val environment value => .ok (environment, value)
        | .errR e => .err e
        | .cont stack environment => fcLoop n stack environment
        | .panic => .panic
        | .outOfFuel => .outOfFuel
      | .name name =>
        match eval n (.name name) environment with
        | .ok (environment, .lambda p _i _o b) =>
          match rest with
          | [] => .panic
          | argumentExpression :: rest =>
            match eval n argumentExpression environment with
            | .ok (environment, argumentValue) =>
              match environment.bind p argumentValue with
              | none => .panic
              | some environment =>
                match express n b with
                | .ok expr =>
                  match eval n expr environment with
                  | .ok (environment, value) =>
                    match value_to_expression n value with
                    | .ok e => fcLoop n (e :: rest) environment
                    | .err _ => .panic
                    | .panic => .panic
                    | .outOfFuel => .outOfFuel
                  | .err e => .err e
                  | .panic => .panic
                  | .outOfFuel => .outOfFuel
                | .err e => .err e
                | .panic => .panic
                | .outOfFuel => .outOfFuel
            | .err e => .err e
            | .panic => .panic
            | .outOfFuel => .outOfFuel
        | .ok (_, _) => .err ⟨"Invalid function call, was expecting a lambda."⟩
        | .err e => .err e
        | .panic => .panic
        | .outOfFuel => .outOfFuel
      | value =>
        match rest with
        | [] => eval n value environment
        | _ => .err ⟨"Invalid function call."⟩

/-- `run_lambda` from `interpreter.rs`. With an empty stack the pending
lambda is returned as a value. Otherwise one argument is popped, evaluated
and bound, and the lambda body evaluated: a lambda result has its *own body*
evaluated immediately and pushed back on the stack (`None`, continue); a
non-lambda result is returned if the stack is empty and is an invalid
function call otherwise. An `express` failure on the inner body is the
`let ... else return None` continue. -/
def run_lambda : Nat → String → Option String → Option String → Element →
    List Expression → Bindings (WanderValue T) (HostFunction T) → RLRes T
  | 0, _, _, _, _, _, _ => .outOfFuel
  | n + 1, name, input, output, lambdaBody, stack, environment =>
    match stack with
    | [] => .val environment (.lambda name input output lambdaBody)
    | argumentExpression :: rest =>
      match eval n argumentExpression environment with
      | .ok (environment, argumentValue) =>
        match environment.bind name argumentValue with
        | none => .panic
        | some environment =>
          match express n lambdaBody with
          | .ok expression =>
            match eval n expression environment with
            | .ok (environment, function) =>
              match function with
              | .lambda _ _ _ b =>
                match express n b with
                | .ok expression =>
                  match eval n expression environment with
                  | .ok (environment, value) =>
                    match value_to_expression n value with
                    | .ok e => .cont (e :: rest) environment
                    | .err _ => .panic
                    | .panic => .panic
                    | .outOfFuel => .outOfFuel
                  | .err e => .errR e
                  | .panic => .panic
                  | .outOfFuel => .outOfFuel
                | .err _ => .cont rest environment
                | .panic => .panic
                | .outOfFuel => .outOfFuel
              | _ =>
                match rest with
                | [] => .val environment function
                | _ => .errR ⟨"Invalid function call, expected expressions."⟩
            | .err e => .errR e
            | .panic => .panic
            | .outOfFuel => .outOfFuel
          | .err e => .errR e
          | .panic => .panic
          | .outOfFuel => .outOfFuel
      | .err e => .errR e
      | .panic => .panic
      | .outOfFuel => .outOfFuel

end


/-- `Gaze::next`: consume the token at the cursor, if any. -/
def gazeNext (tokens : List Token) (pos : Nat) : Option (Token × Nat) :=
  match tokens.get? pos with
  | some t => some (t, pos + 1)
  | none => none

/-- `Gaze::peek`: look at the token at the cursor without consuming. -/
def gazePeek (tokens : List Token) (pos : Nat) : Option Token :=
  tokens.get? pos

/-- `Gaze::is_complete`. -/
def gazeIsComplete (tokens : List Token) (pos : Nat) : Bool :=
  tokens.length ≤ pos

/-!
Parser productions from `parser.rs`. Each is a function from the token list
and cursor position to an optional parsed value and new position;
`Gaze::attemptf` restores the position on failure, which here is simply not
using the returned position (a `none` carries no position). The mutually
recursive productions are fuel-indexed; fuel exhaustion is a no-match.
-/

/-- `boolean` production. -/
def boolean (tokens : List Token) (pos : Nat) : Option (Element × Nat) :=
  match gazeNext tokens pos with
  | some (.boolean value, pos) => some (.boolean value, pos)
  | _ => none

/-- `int` production. -/
def int (tokens : List Token) (pos : Nat) : Option (Element × Nat) :=
  match gazeNext tokens pos with
  | some (.int value, pos) => some (.int value, pos)
  | _ => none

/-- `string` production. -/
def string (tokens : List Token) (pos : Nat) : Option (Element × Nat) :=
  match gazeNext tokens pos with
  | some (.string value, pos) => some (.string value, pos)
  | _ => none

/-- `nothing` production (`Nothing` or `?` tokens). -/
def nothing (tokens : List Token) (pos : Nat) : Option (Element × Nat) :=
  match gazeNext tokens pos with
  | some (.nothing, pos) => some (.nothing, pos)
  | some (.questionMark, pos) => some (.nothing, pos)
  | _ => none

/-- `pipe` production: the forward marker. -/
def pipe (tokens : List Token) (pos : Nat) : Option (Element × Nat) :=
  match gazeNext tokens pos with
  | some (.pipe, pos) => some (.forward, pos)
  | _ => none

/-- `name` production. -/
def name (tokens : List Token) (pos : Nat) : Option (Element × Nat) :=
  match gazeNext tokens pos with
  | some (.name value, pos) => some (.name value, pos)
  | _ => none

/-- The parameter-list loop of the `lambda` production, returning the
parameters in source order. -/
def lambdaParamsLoop (fuel : Nat) (tokens : List Token) (pos : Nat) :
    Option (List (String × Option String) × Nat) :=
  match fuel with
  | 0 => none
  | fuel + 1 =>
    match name tokens pos with
    | some (.name n, pos) =>
      match gazePeek tokens pos with
      | some .colon =>
        match gazeNext tokens pos with
        | some (_, pos) =>
          match gazeNext tokens pos with
          | some (.name tag, pos) =>
            match lambdaParamsLoop fuel tokens pos with
            | some (params, pos) => some ((n, some tag) :: params, pos)
            | none => none
          | _ => none
        | none => none
      | _ =>
        match lambdaParamsLoop fuel tokens pos with
        | some (params, pos) => some ((n, none) :: params, pos)
        | none => none
    | _ => some ([], pos)

/-- The currying fold at the end of the `lambda` production: iterate the
*reversed* parameter list, the first (last source) parameter closing over the
body and each later one wrapping the previous lambda; an empty parameter list
leaves the accumulator `None` and the final `unwrap` panics (a no-match
here). -/
def lambdaFold (body : Element) :
    List (String × Option String) → Option Element → Option Element
  | [], acc => acc
  | (n, tag) :: rest, acc =>
    match acc with
    | some prev => lambdaFold body rest (some (.lambda n tag none prev))
    | none => lambdaFold body rest (some (.lambda n tag none body))

mutual

/-- `let_scope` production: `let`, zero or more `val` declarations, then a
tolerant tail — `gaze.next()` consumes the following token if one is
present, and anything other than `in` (or end of input) yields a `Let` with
a `Nothing` body immediately. -/
def let_scope : Nat → List Token → Nat → Option (Element × Nat)
  | 0, _, _ => none
  | fuel + 1, tokens, pos =>
    match gazeNext tokens pos with
    | some (.letT, pos) =>
      match declsLoop fuel tokens pos with
      | some (decls, pos) =>
        match gazeNext tokens pos with
        | some (.inT, pos) =>
          match element fuel tokens pos with
          | some (body, pos) =>
            match gazeNext tokens pos with
            | some (.endT, pos) => some (.letE decls body, pos)
            | _ => none
          | none =>
            match gazeNext tokens pos with
            | some (.endT, pos) => some (.letE decls .nothing, pos)
            | _ => none
        | some (_, pos) => some (.letE decls .nothing, pos)
        | none => some (.letE decls .nothing, pos)
      | none => none
    | _ => none
  termination_by structural fuel _ _ => fuel


/-- The `while let Some(element) = gaze.attemptf(&mut val_binding)` loop of
`let_scope`. -/
def declsLoop : Nat → List Token → Nat →
    Option (List (String × Option String × Element) × Nat)
  | 0, _, _ => none
  | fuel + 1, tokens, pos =>
    match val_binding fuel tokens pos with
    | some (decl, pos) =>
      match declsLoop fuel tokens pos with
      | some (decls, pos) => some (decl :: decls, pos)
      | none => none
    | none => some ([], pos)
  termination_by structural fuel _ _ => fuel


/-- `val_binding` production: `val name [: tag] = element`. -/
def val_binding : Nat → List Token → Nat →
    Option ((String × Option String × Element) × Nat)
  | 0, _, _ => none
  | fuel + 1, tokens, pos =>
    match gazeNext tokens pos with
    | some (.val, pos) =>
      match gazeNext tokens pos with
      | some (.name n, pos) =>
        match gazePeek tokens pos with
        | some .colon =>
          match gazeNext tokens pos with
          | some (_, pos) =>
            match gazeNext tokens pos with
            | some (.name tag, pos) =>
              match gazeNext tokens pos with
              | some (.equalSign, pos) =>
                match element fuel tokens pos with
                | some (body, pos) => some ((n, some tag, body), pos)
                | none => none
              | _ => none
            | _ => none
          | none => none
        | _ =>
          match gazeNext tokens pos with
          | some (.equalSign, pos) =>
            match element fuel tokens pos with
            | some (body, pos) => some ((n, none, body), pos)
            | none => none
          | _ => none
      | _ => none
    | _ => none
  termination_by structural fuel _ _ => fuel


/-- `grouping` production: one or more `element_inner`s. -/
def grouping : Nat → List Token → Nat → Option (Element × Nat)
  | 0, _, _ => none
  | fuel + 1, tokens, pos =>
    match groupingLoop fuel tokens pos with
    | some ([], _) => none
    | some (expressions, pos) => some (.grouping expressions, pos)
    | none => none
  termination_by structural fuel _ _ => fuel


/-- The `while let Some(e) = gaze.attemptf(&mut element_inner)` loop shared
by `grouping`, `grouped_application`, `list`, `set` and `tuple`. -/
def groupingLoop : Nat → List Token → Nat → Option (List Element × Nat)
  | 0, _, _ => none
  | fuel + 1, tokens, pos =>
    match element_inner fuel tokens pos with
    | some (e, pos) =>
      match groupingLoop fuel tokens pos with
      | some (es, pos) => some (e :: es, pos)
      | none => none
    | none => some ([], pos)
  termination_by structural fuel _ _ => fuel


/-- `grouped_application` production: `( element_inner* )`. -/
def grouped_application : Nat → List Token → Nat → Option (Element × Nat)
  | 0, _, _ => none
  | fuel + 1, tokens, pos =>
    match gazeNext tokens pos with
    | some (.openParen, pos) =>
      match groupingLoop fuel tokens pos with
      | some (expressions, pos) =>
        match gazeNext tokens pos with
        | some (.closeParen, pos) => some (.grouping expressions, pos)
        | _ => none
      | none => none
    | _ => none
  termination_by structural fuel _ _ => fuel


/-- `conditional` production: `if cond then e1 else e2 end`, every keyword
mandatory. -/
def conditional : Nat → List Token → Nat → Option (Element × Nat)
  | 0, _, _ => none
  | fuel + 1, tokens, pos =>
    match gazeNext tokens pos with
    | some (.ifT, pos) =>
      match element fuel tokens pos with
      | some (cond, pos) =>
        match gazeNext tokens pos with
        | some (.thenT, pos) =>
          match element fuel tokens pos with
          | some (ife, pos) =>
            match gazeNext tokens pos with
            | some (.elseT, pos) =>
              match element fuel tokens pos with
              | some (elsee, pos) =>
                match gazeNext tokens pos with
                | some (.endT, pos) =>
                  some (.conditional cond ife elsee, pos)
                | _ => none
              | none => none
            | _ => none
          | none => none
        | _ => none
      | none => none
    | _ => none
  termination_by structural fuel _ _ => fuel


/-- `lambda` production: `\\ params -> body`, desugared right to left into
nested single-parameter lambdas. -/
def lambda : Nat → List Token → Nat → Option (Element × Nat)
  | 0, _, _ => none
  | fuel + 1, tokens, pos =>
    match gazeNext tokens pos with
    | some (.lambda, pos) =>
      match lambdaParamsLoop fuel tokens pos with
      | some (params, pos) =>
        match gazeNext tokens pos with
        | some (.arrow, pos) =>
          match element fuel tokens pos with
          | some (body, pos) =>
            match lambdaFold body params.reverse none with
            | some l => some (l, pos)
            | none => none
          | none => none
        | _ => none
      | none => none
    | _ => none
  termination_by structural fuel _ _ => fuel


/-- `list` production: `[ element_inner* ]`. -/
def list : Nat → List Token → Nat → Option (Element × Nat)
  | 0, _, _ => none
  | fuel + 1, tokens, pos =>
    match gazeNext tokens pos with
    | some (.openSquare, pos) =>
      match groupingLoop fuel tokens pos with
      | some (contents, pos) =>
        match gazeNext tokens pos with
        | some (.closeSquare, pos) => some (.list contents, pos)
        | _ => none
      | none => none
    | _ => none
  termination_by structural fuel _ _ => fuel


/-- `record` production: `{ (name = element_inner)* }`. -/
def record : Nat → List Token → Nat → Option (Element × Nat)
  | 0, _, _ => none
  | fuel + 1, tokens, pos =>
    match gazeNext tokens pos with
    | some (.openBrace, pos) =>
      match recordFieldsLoop fuel tokens pos [] with
      | some (contents, pos) =>
        match gazeNext tokens pos with
        | some (.closeBrace, pos) => some (.record contents, pos)
        | _ => none
      | none => none
    | _ => none
  termination_by structural fuel _ _ => fuel


/-- The field loop of the `record` production. A field whose value fails to
parse is skipped (the source's `None` arm of the inner match inserts
nothing and the loop continues). -/
def recordFieldsLoop : Nat → List Token → Nat → List (String × Element) →
    Option (List (String × Element) × Nat)
  | 0, _, _, _ => none
  | fuel + 1, tokens, pos, contents =>
    match name tokens pos with
    | some (.name n, pos) =>
      match gazeNext tokens pos with
      | some (.equalSign, pos) =>
        match element_inner fuel tokens pos with
        | some (e, pos) => recordFieldsLoop fuel tokens pos (alistInsert n e contents)
        | none => recordFieldsLoop fuel tokens pos contents
      | _ => none
    | _ => some (contents, pos)
  termination_by structural fuel _ _ => fuel


/-- `set` production: `# ( element_inner* )`. -/
def set : Nat → List Token → Nat → Option (Element × Nat)
  | 0, _, _ => none
  | fuel + 1, tokens, pos =>
    match gazeNext tokens pos with
    | some (.hash, pos) =>
      match gazeNext tokens pos with
      | some (.openParen, pos) =>
        match groupingLoop fuel tokens pos with
        | some (contents, pos) =>
          match gazeNext tokens pos with
          | some (.closeParen, pos) => some (.set contents, pos)
          | _ => none
        | none => none
      | _ => none
    | _ => none
  termination_by structural fuel _ _ => fuel


/-- `tuple` production: `' ( element_inner* )`. -/
def tuple : Nat → List Token → Nat → Option (Element × Nat)
  | 0, _, _ => none
  | fuel + 1, tokens, pos =>
    match gazeNext tokens pos with
    | some (.singleQuote, pos) =>
      match gazeNext tokens pos with
      | some (.openParen, pos) =>
        match groupingLoop fuel tokens pos with
        | some (contents, pos) =>
          match gazeNext tokens pos with
          | some (.closeParen, pos) => some (.tuple contents, pos)
          | _ => none
        | none => none
      | _ => none
    | _ => none
  termination_by structural fuel _ _ => fuel


/-- `element_inner` production: the ordered alternative list
tuple, set, record, name, boolean, nothing, int, string, let_scope,
grouped_application, conditional, lambda, list. -/
def element_inner : Nat → List Token → Nat → Option (Element × Nat)
  | 0, _, _ => none
  | fuel + 1, tokens, pos =>
    match tuple fuel tokens pos with
    | some r => some r
    | none =>
    match set fuel tokens pos with
    | some r => some r
    | none =>
    match record fuel tokens pos with
    | some r => some r
    | none =>
    match name tokens pos with
    | some r => some r
    | none =>
    match boolean tokens pos with
    | some r => some r
    | none =>
    match nothing tokens pos with
    | some r => some r
    | none =>
    match int tokens pos with
    | some r => some r
    | none =>
    match string tokens pos with
    | some r => some r
    | none =>
    match let_scope fuel tokens pos with
    | some r => some r
    | none =>
    match grouped_application fuel tokens pos with
    | some r => some r
    | none =>
    match conditional fuel tokens pos with
    | some r => some r
    | none =>
    match lambda fuel tokens pos with
    | some r => some r
    | none => list fuel tokens pos
  termination_by structural fuel _ _ => fuel


/-- `element` production: the ordered alternative list
pipe, let_scope, grouping, grouped_application, conditional. -/
def element : Nat → List Token → Nat → Option (Element × Nat)
  | 0, _, _ => none
  | fuel + 1, tokens, pos =>
    match pipe tokens pos with
    | some r => some r
    | none =>
    match let_scope fuel tokens pos with
    | some r => some r
    | none =>
    match grouping fuel tokens pos with
    | some r => some r
    | none =>
    match grouped_application fuel tokens pos with
    | some r => some r
    | none => conditional fuel tokens pos
  termination_by structural fuel _ _ => fuel


/-- `elements` production: repeat `element` until the cursor is complete;
a failing attempt with input remaining fails the whole production. -/
def elements : Nat → List Token → Nat → Option (List Element × Nat)
  | 0, _, _ => none
  | fuel + 1, tokens, pos =>
    if gazeIsComplete tokens pos then some ([], pos)
    else
      match element fuel tokens pos with
      | some (e, pos) =>
        match elements fuel tokens pos with
        | some (es, pos) => some (e :: es, pos)
        | none => none
      | none => none
  termination_by structural fuel _ _ => fuel
end

/-- `parse` from `parser.rs`: run `elements` from the start; a single result
is returned bare, several are wrapped in a `Grouping`. -/
def parse (fuel : Nat) (tokens : List Token) : Except WanderError Element :=
  match elements fuel tokens 0 with
  | some ([value], _) => .ok value
  | some (values, _) => .ok (.grouping values)
  | none => .error ⟨"Error parsing"⟩


/-!
## Lexer (modelled from the spec)

`lexer.rs` is part of this repository but is not under `src/`; the model
below follows spec section 4.1: character-by-character scan recognizing
integer literals (optional leading `-`), double-quoted strings whose
backslash escapes are limited to `\n`, `\t`, `\\`, `\"` (any other escape is
an error) and are kept raw in the token for the evaluator's unescape pass,
boolean keywords, the fixed keyword/punctuation set, and maximal identifier
runs (dotted names allowed) as names; whitespace is filtered out
(`tokenize_and_filter`). Unterminated strings fail the whole lex.
-/

/-- Whitespace recognised by the modelled lexer's filtering stage. -/
def isWsChar (c : Char) : Bool :=
  c = ' ' || c = '\n' || c = '\t' || c = '\r'

/-- Characters an identifier run may contain (dotted names allowed). -/
def isNameChar (c : Char) : Bool :=
  c.isAlpha || c.isDigit || c = '.' || c = '_'

/-- Modelled from the spec: the string scan — consume raw characters up to
the closing quote, keeping validated escape pairs raw; a `none` is an
unterminated string or an invalid escape. Returns the raw content and the
remaining input. -/
def lexStringContent : List Char → Option (List Char × List Char)
  | [] => none
  | c :: rest =>
    if c = '"' then some ([], rest)
    else if c = '\\' then
      match rest with
      | [] => none
      | c2 :: rest2 =>
        if c2 = 'n' || c2 = 't' || c2 = '\\' || c2 = '"' then
          match lexStringContent rest2 with
          | some (content, rest') => some ('\\' :: c2 :: content, rest')
          | none => none
        else none
    else
      match lexStringContent rest with
      | some (content, rest') => some (c :: content, rest')
      | none => none
  termination_by structural x => x

/-- The digit-run accumulator of the modelled lexer's integer scan. -/
def parseNatAux (acc : Nat) : List Char → Nat
  | [] => acc
  | c :: rest => parseNatAux (acc * 10 + (c.toNat - 48)) rest

/-- Keyword table of the modelled lexer. -/
def keywordToken (s : String) : Token :=
  if s = "true" then .boolean true
  else if s = "false" then .boolean false
  else if s = "let" then .letT
  else if s = "in" then .inT
  else if s = "end" then .endT
  else if s = "if" then .ifT
  else if s = "then" then .thenT
  else if s = "else" then .elseT
  else if s = "val" then .val
  else .name s

/-- Modelled from the spec: `tokenize_and_filter` — one token per fuel step,
leading whitespace dropped (the filter stage), `none`-like errors as
`WanderError`s, fuel exhaustion as `outOfFuel`. -/
def tokenize_and_filter : Nat → List Char → PRes (List Token)
  | 0, _ => .outOfFuel
  | fuel + 1, input =>
    match input.dropWhile isWsChar with
    | [] => .ok []
    | c :: rest =>
      if c = '"' then
        match lexStringContent rest with
        | some (content, rest') =>
          match tokenize_and_filter fuel rest' with
          | .ok tokens => .ok (.string ⟨content⟩ :: tokens)
          | r => r
        | none => .err ⟨"unterminated string or invalid escape"⟩
      else if c = '-' then
        match rest with
        | [] => .err ⟨"unexpected character"⟩
        | c2 :: rest2 =>
          if c2 = '>' then
            match tokenize_and_filter fuel rest2 with
            | .ok tokens => .ok (.arrow :: tokens)
            | r => r
          else if c2.isDigit then
            match tokenize_and_filter fuel ((c2 :: rest2).dropWhile Char.isDigit) with
            | .ok tokens =>
              .ok (.int (-(parseNatAux 0 ((c2 :: rest2).takeWhile Char.isDigit) : Nat)) :: tokens)
            | r => r
          else .err ⟨"unexpected character"⟩
      else if c = '>' then
        match rest with
        | [] => .err ⟨"unexpected character"⟩
        | c2 :: rest2 =>
          if c2 = '>' then
            match tokenize_and_filter fuel rest2 with
            | .ok tokens => .ok (.pipe :: tokens)
            | r => r
          else .err ⟨"unexpected character"⟩
      else if c.isDigit then
        match tokenize_and_filter fuel ((c :: rest).dropWhile Char.isDigit) with
        | .ok tokens =>
          .ok (.int (parseNatAux 0 ((c :: rest).takeWhile Char.isDigit) : Nat) :: tokens)
        | r => r
      else if isNameChar c then
        match tokenize_and_filter fuel ((c :: rest).dropWhile isNameChar) with
        | .ok tokens => .ok (keywordToken ⟨(c :: rest).takeWhile isNameChar⟩ :: tokens)
        | r => r
      else
        match
          (if c = '(' then some Token.openParen
           else if c = ')' then some Token.closeParen
           else if c = '[' then some Token.openSquare
           else if c = ']' then some Token.closeSquare
           else if c = ':' then some Token.colon
           else if c = '=' then some Token.equalSign
           else if c = '#' then some Token.hash
           else if c = '?' then some Token.questionMark
           else if c = '\\' then some Token.lambda
           else none) with
        | some t =>
          match tokenize_and_filter fuel rest with
          | .ok tokens => .ok (t :: tokens)
          | r => r
        | none => .err ⟨"unexpected character"⟩

/-!
## Rendering (`Display for WanderValue`, primitive fragment)
-/

/-- Decimal digit emission for `write_integer`/`format!`; fuel-indexed
division loop (`fuel ≥ n` always suffices; callers pass `n + 1`). -/
def natDecimalAux : Nat → Nat → List Char
  | 0, _ => []
  | fuel + 1, n =>
    if n = 0 then []
    else natDecimalAux fuel (n / 10) ++ [Nat.digitChar (n % 10)]

/-- Decimal rendering of a natural number. -/
def natDecimal (n : Nat) : List Char :=
  if n = 0 then ['0'] else natDecimalAux (n + 1) n

/-- `write_integer` from `lib.rs` (`format!` on an `i64`): optional minus
sign followed by decimal digits. -/
def write_integer (i : Int) : String :=
  if i < 0 then ⟨'-' :: natDecimal i.natAbs⟩ else ⟨natDecimal i.natAbs⟩

/-- The primitive fragment of `Display for WanderValue` from `lib.rs`:
booleans and integers via `format!`, strings via `write_string`. Composite
values are not rendered here (no claim needs them), hence `none`. -/
def renderLiteral : WanderValue T → Option String
  | .bool b => some (if b then "true" else "false")
  | .int i => some (write_integer i)
  | .string s => some (write_string s)
  | _ => none

/-- `run` from `lib.rs` for a script against a fresh `Bindings::new` (no
token transformers registered, so the `transform` stage is the identity per
spec section 4.2): tokenize-and-filter, parse, translate, eval, returning the
produced value. A fixed fuel of 50 per stage is ample for single-literal
scripts, whose token count is always 1. -/
def runLit (T : Type) (script : String) : PRes (WanderValue T) :=
  match tokenize_and_filter (script.data.length + 1) script.data with
  | .ok tokens =>
    match parse 50 tokens with
    | .ok el =>
      match translate 50 el with
      | .ok expr =>
        match eval 50 expr (Bindings.new (V := WanderValue T) (H := HostFunction T)) with
        | .ok (_, value) => .ok value
        | .err e => .err e
        | .panic => .panic
        | .outOfFuel => .outOfFuel
      | .err e => .err e
      | .panic => .panic
      | .outOfFuel => .outOfFuel
    | .error e => .err e
  | .err e => .err e
  | .panic => .panic
  | .outOfFuel => .outOfFuel

/-!
## `bind_host_function` (`bindings.rs`)

`bindings.rs` constructs the `lib.rs` revision of the value/AST types, whose
`Lambda` carries `WanderType` tags; embedded here as `LibElement`/`LibValue`.
-/

/-- The `lib.rs`-revision `Element` as constructed by `bindings.rs` (the
`Lambda` variant carries `WanderType` tags; the remaining variants mirror the
parser's). -/
inductive LibElement where
  | boolean : Bool → LibElement
  | int : Int → LibElement
  | string : String → LibElement
  | name : String → LibElement
  | hostFunction : String → LibElement
  | grouping : List LibElement → LibElement
  | lambda : String → WanderType → WanderType → LibElement → LibElement
  | nothing : LibElement
deriving Repr

/-- `WanderValue` from `lib.rs` (the revision whose `Lambda` carries
`WanderType` input/output tags). -/
inductive LibValue (T : Type) where
  | boolean : Bool → LibValue T
  | int : Int → LibValue T
  | string : String → LibValue T
  | nothing : LibValue T
  | lambda : String → WanderType → WanderType → LibElement → LibValue T
  | list : List (LibValue T) → LibValue T
  | tuple : List (LibValue T) → LibValue T
  | set : List (LibValue T) → LibValue T
  | record : List (String × LibValue T) → LibValue T
  | hostValue : T → LibValue T
deriving Repr

/-- `HostFunctionBinding` from `lib.rs`. -/
structure HostFunctionBinding where
  name : String
  parameters : List (String × WanderType)
  result : WanderType
  doc_string : String

/-- One step of the `p.iter().for_each(...)` fold in `bind_host_function`:
the first processed (last) parameter closes over a `HostFunction` element,
each later one wraps the previous lambda; a non-lambda accumulator is the
`panic!("Should never reach.")`, modelled as `none` forwarded by the fold. -/
def bindHostFold (fullName : String) :
    List (String × WanderType) → Option (Option (LibValue T)) →
    Option (Option (LibValue T))
  | [], acc => acc
  | p :: rest, acc =>
    match acc with
    | none => none
    | some (some (.lambda innerp i o b)) =>
      bindHostFold fullName rest
        (some (some (.lambda p.1 p.2 .any (.lambda innerp i o b))))
    | some (some _) => none
    | some none =>
      bindHostFold fullName rest
        (some (some (.lambda p.1 p.2 .any (.hostFunction fullName))))

/-- `Bindings::bind_host_function` from `bindings.rs`: register the function
under its qualified name, then fold the *reversed* parameter list into a
nested single-parameter curried lambda value and bind it under the same
name. `result.unwrap()` on an empty parameter list is a panic (`none`), as is
the unreachable non-lambda accumulator and `bind`'s own empty-scope-stack
panic. -/
def bind_host_function (b : Bindings (LibValue T) HostFunctionBinding)
    (function : HostFunctionBinding) :
    Option (Bindings (LibValue T) HostFunctionBinding) :=
  let full_name := function.name
  let b := { b with hostFunctions := alistInsert full_name function b.hostFunctions }
  match bindHostFold full_name function.parameters.reverse (some none) with
  | some (some value) => b.bind full_name value
  | _ => none


/-!
## Helper predicates and lemmas
-/

/-- The discriminant test for the `WanderValue::Bool` arms of
`handle_conditional`. -/
def WanderValue.isBool : WanderValue T → Bool
  | .bool _ => true
  | _ => false

/-- The discriminant test for the `WanderValue::Lambda` arm of
`run_lambda`. -/
def WanderValue.isLambda : WanderValue T → Bool
  | .lambda _ _ _ _ => true
  | _ => false

/-- The head shapes `handle_function_call`'s loop treats as callable; the
match's catch-all covers everything else. -/
def Expression.isCallable : Expression → Bool
  | .application _ => true
  | .lambda _ _ _ _ => true
  | .name _ => true
  | _ => false

theorem alistGet_insert_self (k : String) (v : α) (l : List (String × α)) :
    alistGet k (alistInsert k v l) = some v := by
  induction l with
  | nil => simp [alistInsert, alistGet]
  | cons hd tl ih =>
    obtain ⟨k', v'⟩ := hd
    by_cases h : k = k' <;> simp [alistInsert, alistGet, h, ih]

/-- After a successful `Bindings::bind`, `Bindings::read` of the same name
finds the bound value (the innermost scope is consulted first). -/
theorem read_bind {b b' : Bindings V H} {name : String} {v : V}
    (h : b.bind name v = some b') : b'.read name = some v := by
  unfold Bindings.bind at h
  match hl : b.scopes.getLast? with
  | none => rw [hl] at h; exact absurd h (by simp)
  | some scope =>
    rw [hl] at h
    simp only [Option.some.injEq] at h
    subst h
    simp [Bindings.read, readScopes, alistGet_insert_self]

/-- `eval` of a bare name with the name readable in the environment. -/
theorem eval_name_read {env : Bindings (WanderValue T) (HostFunction T)}
    {name : String} {v : WanderValue T} (h : env.read name = some v) (n : Nat) :
    eval (n + 1) (.name name) env = .ok (env, v) := by
  simp [eval, read_name, h]

/-!
## C1 — let-scope discipline
-/

/-- C1 (counterexample): evaluating `let val x = 5 in x end` from a fresh
environment *does not* leave the enclosing scope unchanged — the binding
`x = 5` persists in the environment after the let finishes, and a later
reference to `x` in that environment succeeds with `Int 5` instead of failing
with an unbound-name error. -/
theorem let_bindings_leak_counterexample :
    eval 10 (.letE [("x", none, .int 5)] (.name "x"))
        (Bindings.new (V := WanderValue Unit) (H := HostFunction Unit)) =
      .ok ({ tokenTransformers := [], hostFunctions := [],
             scopes := [[("x", .int 5)]] }, .int 5) ∧
    (({ tokenTransformers := [], hostFunctions := [],
          scopes := [[("x", .int 5)]] } :
        Bindings (WanderValue Unit) (HostFunction Unit)).read "x" = some (.int 5)) ∧
    eval 10 (.name "x")
        ({ tokenTransformers := [], hostFunctions := [],
           scopes := [[("x", .int 5)]] } :
          Bindings (WanderValue Unit) (HostFunction Unit)) =
      .ok ({ tokenTransformers := [], hostFunctions := [],
             scopes := [[("x", .int 5)]] }, .int 5) :=
  ⟨rfl, rfl, rfl⟩

/-- C1 (amended): `handle_let` evaluates each declaration and binds it into
the *current* scope without pushing or popping; the binding survives the let,
the resulting environment is exactly the bound one, and a later reference to
the name succeeds with the bound value. -/
theorem let_bindings_persist_after_let {T : Type} (n : Nat) (nm : String)
    (b : Expression) {env env₁ env₂ : Bindings (WanderValue T) (HostFunction T)}
    {v : WanderValue T}
    (hb : eval (n + 1) b env = .ok (env₁, v))
    (hbind : env₁.bind nm v = some env₂) :
    eval (n + 4) (.letE [(nm, none, b)] (.name nm)) env = .ok (env₂, v) ∧
    env₂.read nm = some v := by
  have hread : env₂.read nm = some v := read_bind hbind
  refine ⟨?_, hread⟩
  show handle_let (n + 3) [(nm, none, b)] (.name nm) env = _
  show (match handle_decl (n + 2) nm none b env with
        | .ok environment => handle_let (n + 2) [] (.name nm) environment
        | .err e => .err e
        | .panic => .panic
        | .outOfFuel => .outOfFuel) = _
  have hdecl : handle_decl (n + 2) nm none b env = .ok env₂ := by
    show (match eval (n + 1) b env with
          | .ok (environment, value) =>
            match environment.bind nm value with
            | some environment => PRes.ok environment
            | none => .panic
          | .err e => .err e
          | .panic => .panic
          | .outOfFuel => .outOfFuel) = _
    rw [hb]
    show (match env₁.bind nm v with
          | some environment => PRes.ok environment
          | none => .panic) = _
    rw [hbind]
  rw [hdecl]
  show eval (n + 1) (.name nm) env₂ = _
  exact eval_name_read hread n

/-- C1 (witness). -/
theorem let_bindings_persist_after_let_witness :
    eval 5 (.letE [("x", none, .int 5)] (.name "x"))
        (Bindings.new (V := WanderValue Unit) (H := HostFunction Unit)) =
      .ok ({ tokenTransformers := [], hostFunctions := [],
             scopes := [[("x", .int 5)]] }, .int 5) ∧
    ({ tokenTransformers := [], hostFunctions := [],
       scopes := [[("x", .int 5)]] } :
      Bindings (WanderValue Unit) (HostFunction Unit)).read "x" = some (.int 5) :=
  let_bindings_persist_after_let 1 "x" (.int 5) rfl rfl

/-!
## C2 — partial application
-/

/-- C2: applying the two-parameter lambda `(\x y -> 31)` to the single
argument `5` does *not* return a partially-applied lambda awaiting `y`; the
evaluator binds `x`, then eagerly evaluates the inner lambda's body without
binding `y` and returns `Int 31`. -/
theorem partial_application_evaluates_inner_body :
    eval 20
        (.application
          [.lambda "x" none none (.lambda "y" none none (.int 31)), .int 5])
        (Bindings.new (V := WanderValue Unit) (H := HostFunction Unit)) =
      .ok ({ tokenTransformers := [], hostFunctions := [],
             scopes := [[("x", .int 5)]] }, .int 31) ∧
    (WanderValue.isLambda (WanderValue.int (T := Unit) 31)) = false :=
  ⟨rfl, rfl⟩

/-!
## C3 — conditional semantics
-/

/-- C3: the condition is evaluated first; a `true`/`false` boolean selects
exactly the corresponding branch (the other branch never runs — the result
is the bare evaluation of the taken branch, independent of the untaken one);
a non-boolean condition is a type error; and concretely
`if true then 1 else boom end` evaluates to `1` even though evaluating the
untaken `boom` would fail. -/
theorem conditional_semantics :
    (∀ (T : Type) (n : Nat) (c i e : Expression)
        (env env' : Bindings (WanderValue T) (HostFunction T)),
        eval n c env = .ok (env', .bool true) →
        eval (n + 2) (.conditional c i e) env = eval n i env') ∧
    (∀ (T : Type) (n : Nat) (c i e : Expression)
        (env env' : Bindings (WanderValue T) (HostFunction T)),
        eval n c env = .ok (env', .bool false) →
        eval (n + 2) (.conditional c i e) env = eval n e env') ∧
    (∀ (T : Type) (n : Nat) (c i e : Expression)
        (env env' : Bindings (WanderValue T) (HostFunction T))
        (v : WanderValue T),
        eval n c env = .ok (env', v) → v.isBool = false →
        eval (n + 2) (.conditional c i e) env =
          .err ⟨"Conditionals require a bool value found"⟩) ∧
    (eval 10 (.conditional (.boolean true) (.int 1) (.name "boom"))
        (Bindings.new (V := WanderValue Unit) (H := HostFunction Unit)) =
      .ok (Bindings.new, .int 1)) ∧
    (eval 10 (.name "boom")
        (Bindings.new (V := WanderValue Unit) (H := HostFunction Unit)) =
      .err ⟨"Error looking up boom"⟩) := by
  refine ⟨?_, ?_, ?_, rfl, rfl⟩
  · intro T n c i e env env' h
    show handle_conditional (n + 1) c i e env = _
    show (match eval n c env with
          | .ok (environment, .bool true) => eval n i environment
          | .ok (environment, .bool false) => eval n e environment
          | .ok (_, _) => .err ⟨"Conditionals require a bool value found"⟩
          | .err e => .err e
          | .panic => .panic
          | .outOfFuel => .outOfFuel) = _
    rw [h]
  · intro T n c i e env env' h
    show handle_conditional (n + 1) c i e env = _
    show (match eval n c env with
          | .ok (environment, .bool true) => eval n i environment
          | .ok (environment, .bool false) => eval n e environment
          | .ok (_, _) => .err ⟨"Conditionals require a bool value found"⟩
          | .err e => .err e
          | .panic => .panic
          | .outOfFuel => .outOfFuel) = _
    rw [h]
  · intro T n c i e env env' v h hv
    show handle_conditional (n + 1) c i e env = _
    show (match eval n c env with
          | .ok (environment, .bool true) => eval n i environment
          | .ok (environment, .bool false) => eval n e environment
          | .ok (_, _) => .err ⟨"Conditionals require a bool value found"⟩
          | .err e => .err e
          | .panic => .panic
          | .outOfFuel => .outOfFuel) = _
    rw [h]
    cases v <;> simp_all [WanderValue.isBool]

/-- C3 (witness): the general branch equations applied at concrete inputs. -/
theorem conditional_semantics_witness :
    eval 12 (.conditional (.boolean false) (.name "boom") (.int 2))
        (Bindings.new (V := WanderValue Unit) (H := HostFunction Unit)) =
      .ok (Bindings.new, .int 2) := by
  have h := conditional_semantics.2.1 Unit 10 (.boolean false) (.name "boom")
    (.int 2) Bindings.new Bindings.new rfl
  exact h.trans rfl

/-!
## C4 — record field projection safety
-/

/-- C4: with `x` bound to the record `(a = 24, b = (c = 45))`, the
first-level missing projection `x.q` returns a field-not-found error, but
the *nested* missing projection `x.b.d` hits `r.get(field).unwrap()` and
panics instead of returning an error — both via `read_field` directly and
through full name resolution in `eval`. -/
theorem nested_missing_field_panics :
    read_field "x.b.d"
        { tokenTransformers := [], hostFunctions := ([] : List (String × HostFunction Unit)),
          scopes := [[("x", .record [("a", .int 24), ("b", .record [("c", .int 45)])])]] } =
      .panic ∧
    eval 5 (.name "x.b.d")
        { tokenTransformers := [], hostFunctions := ([] : List (String × HostFunction Unit)),
          scopes := [[("x", .record [("a", .int 24), ("b", .record [("c", .int 45)])])]] } =
      .panic ∧
    read_field "x.q"
        { tokenTransformers := [], hostFunctions := ([] : List (String × HostFunction Unit)),
          scopes := [[("x", .record [("a", .int 24), ("b", .record [("c", .int 45)])])]] } =
      .err ⟨"Could not read field x"⟩ ∧
    read_field "x.b.c"
        { tokenTransformers := [], hostFunctions := ([] : List (String × HostFunction Unit)),
          scopes := [[("x", .record [("a", .int 24), ("b", .record [("c", .int 45)])])]] } =
      .ok (.int 45) :=
  ⟨rfl, rfl, rfl, rfl⟩

/-!
## C9 — empty program behaviour
-/

/-- C9: the empty token sequence parses to an empty `Grouping`, which
translates to an empty `Application`, whose evaluation falls through the
application loop into the unconditional `panic!()`; a whitespace-only script
(through the spec-modelled lexer) therefore aborts rather than returning an
error result. -/
theorem empty_program_panics :
    parse 10 ([] : List Token) = .ok (.grouping []) ∧
    translate 10 (.grouping []) = .ok (.application []) ∧
    eval 10 (.application [])
        (Bindings.new (V := WanderValue Unit) (H := HostFunction Unit)) = .panic ∧
    runLit Unit "" = .panic ∧
    runLit Unit "   " = .panic :=
  ⟨rfl, rfl, rfl, rfl, rfl⟩


/-!
## C6 — pipe/forward translation
-/

/-- C6 (counterexample): a grouping with two chained forwards,
`Grouping [1, Forward, f, Forward, g]`, translates to the *flat*
`Application [f, 1, g]`, not to the nested
`Application [g, Application [f, 1]]` the claim states. -/
theorem chained_forwards_flat_counterexample :
    translate 10 (.grouping [.int 1, .forward, .name "f", .forward, .name "g"]) =
      .ok (.application [.name "f", .int 1, .name "g"]) ∧
    translate 10 (.grouping [.int 1, .forward, .name "f", .forward, .name "g"]) ≠
      .ok (.application [.name "g", .application [.name "f", .int 1]]) := by
  refine ⟨rfl, ?_⟩
  intro h
  rw [show translate 10 (.grouping [.int 1, .forward, .name "f", .forward, .name "g"]) =
      .ok (.application [.name "f", .int 1, .name "g"]) from rfl] at h
  simp at h

theorem isForward_forward : Element.forward.isForward = true := rfl

/-- C6 (amended): `process_forwards` appends the accumulated left-hand terms
after the terms that follow a forward, but a *second* forward in the same
grouping only flushes that accumulator into place: a single forward yields
`Grouping [f, a]` (hence `Application [f, a]`), while chained forwards yield
the flat `Grouping [f, a, g]` (hence `Application [f, a, g]`) rather than a
nested application. -/
theorem forward_translation :
    (∀ a f : Element, a.isForward = false → f.isForward = false →
      process_forwards (.grouping [a, .forward, f]) = .ok (.grouping [f, a])) ∧
    (∀ a f g : Element, a.isForward = false → f.isForward = false →
      g.isForward = false →
      process_forwards (.grouping [a, .forward, f, .forward, g]) =
        .ok (.grouping [f, a, g])) ∧
    translate 10 (.grouping [.boolean false, .forward, .name "not"]) =
      .ok (.application [.name "not", .boolean false]) ∧
    translate 10 (.grouping [.int 1, .forward, .name "f", .forward, .name "g"]) =
      .ok (.application [.name "f", .int 1, .name "g"]) := by
  refine ⟨?_, ?_, rfl, rfl⟩
  · intro a f ha hf
    simp [process_forwards, pfLoop, ha, hf, isForward_forward]
  · intro a f g ha hf hg
    simp [process_forwards, pfLoop, ha, hf, hg, isForward_forward]

/-- C6 (witness). -/
theorem forward_translation_witness :
    process_forwards (.grouping [.int 1, .forward, .name "f"]) =
      .ok (.grouping [.name "f", .int 1]) ∧
    process_forwards (.grouping [.int 1, .forward, .name "f", .forward, .name "g"]) =
      .ok (.grouping [.name "f", .int 1, .name "g"]) :=
  ⟨forward_translation.1 (.int 1) (.name "f") rfl rfl,
   forward_translation.2.1 (.int 1) (.name "f") (.name "g") rfl rfl rfl⟩

/-!
## C8 — over-saturation is an error
-/

/-- C8 (counterexample): over-saturating through a nested application head is
*not* an error: in `((\a -> 31) 5) 6` the inner application saturates to the
non-lambda `Int 31` while the argument `6` is still unconsumed, and
`handle_function_call` returns `Ok(Int 31)`, silently discarding the extra
argument instead of failing with an invalid-function-call error. -/
theorem application_head_discards_extra_arguments :
    eval 30
        (.application
          [.application [.lambda "a" none none (.int 31), .int 5], .int 6])
        (Bindings.new (V := WanderValue Unit) (H := HostFunction Unit)) =
      .ok ({ tokenTransformers := [], hostFunctions := [],
             scopes := [[("a", .int 5)]] }, .int 31) :=
  rfl

/-- C8 (amended): whether over-saturation errors depends on the code path.
(1) In `run_lambda`, a saturated body producing a non-lambda with expressions
remaining is the invalid-function-call error; (2) a non-callable head with
arguments remaining is an invalid-function-call error; but (3) when the head
of the application sequence is itself an `Application` whose call produces a
non-lambda value, that value is returned immediately and any remaining
argument expressions are silently discarded. -/
theorem oversaturation_error_and_discard :
    (∀ (T : Type) (n : Nat) (nm : String) (i o : Option String) (body : Element)
        (argE : Expression) (rest : List Expression)
        (env env₁ env₂ env₃ : Bindings (WanderValue T) (HostFunction T))
        (argV v : WanderValue T) (expr : Expression),
        eval n argE env = .ok (env₁, argV) →
        env₁.bind nm argV = some env₂ →
        express n body = .ok expr →
        eval n expr env₂ = .ok (env₃, v) →
        v.isLambda = false →
        rest ≠ [] →
        run_lambda (n + 1) nm i o body (argE :: rest) env =
          .errR ⟨"Invalid function call, expected expressions."⟩) ∧
    (∀ (T : Type) (n : Nat) (e : Expression) (rest : List Expression)
        (env : Bindings (WanderValue T) (HostFunction T)),
        e.isCallable = false → rest ≠ [] →
        fcLoop (n + 1) (e :: rest) env = .err ⟨"Invalid function call."⟩) ∧
    (∀ (T : Type) (n : Nat) (contents rest : List Expression)
        (env env' : Bindings (WanderValue T) (HostFunction T))
        (v : WanderValue T),
        handle_function_call n contents env = .ok (env', v) →
        v.isLambda = false →
        fcLoop (n + 1) (.application contents :: rest) env = .ok (env', v)) := by
  refine ⟨?_, ?_, ?_⟩
  · intro T n nm i o body argE rest env env₁ env₂ env₃ argV v expr harg hbind hexp hev hv hrest
    obtain ⟨r, rs, rfl⟩ : ∃ r rs, rest = r :: rs := by
      cases rest with
      | nil => exact absurd rfl hrest
      | cons r rs => exact ⟨r, rs, rfl⟩
    simp only [run_lambda, harg, hbind, hexp, hev]
    cases v <;> simp_all [WanderValue.isLambda]
  · intro T n e rest env he hrest
    obtain ⟨r, rs, rfl⟩ : ∃ r rs, rest = r :: rs := by
      cases rest with
      | nil => exact absurd rfl hrest
      | cons r rs => exact ⟨r, rs, rfl⟩
    cases e <;> simp_all [Expression.isCallable, fcLoop]
  · intro T n contents rest env env' v hcall hv
    simp only [fcLoop, hcall]
    cases v <;> simp_all [WanderValue.isLambda]

/-- C8 (witness): the one-parameter lambda `(\x -> 31)` applied directly to
two arguments errors, a non-callable head errors, and the parenthesised
`((\a -> 31) 5) 6` silently yields `Int 31`, discarding `6`. -/
theorem oversaturation_error_and_discard_witness :
    run_lambda 11 "x" none none (.int 31) [.int 5, .int 6]
        (Bindings.new (V := WanderValue Unit) (H := HostFunction Unit)) =
      .errR ⟨"Invalid function call, expected expressions."⟩ ∧
    fcLoop 11 [.int 1, .int 2]
        (Bindings.new (V := WanderValue Unit) (H := HostFunction Unit)) =
      .err ⟨"Invalid function call."⟩ ∧
    fcLoop 21 [.application [.lambda "a" none none (.int 31), .int 5], .int 6]
        (Bindings.new (V := WanderValue Unit) (H := HostFunction Unit)) =
      .ok ({ tokenTransformers := [], hostFunctions := [],
             scopes := [[("a", .int 5)]] }, .int 31) :=
  ⟨oversaturation_error_and_discard.1 Unit 10 "x" none none (.int 31) (.int 5)
      [.int 6] Bindings.new Bindings.new
      { tokenTransformers := [], hostFunctions := [], scopes := [[("x", .int 5)]] }
      { tokenTransformers := [], hostFunctions := [], scopes := [[("x", .int 5)]] }
      (.int 5) (.int 31) (.int 31) rfl rfl rfl rfl rfl (by simp),
   oversaturation_error_and_discard.2.1 Unit 10 (.int 1) [.int 2] Bindings.new
      rfl (by simp),
   oversaturation_error_and_discard.2.2 Unit 20
      [.lambda "a" none none (.int 31), .int 5] [.int 6] Bindings.new
      { tokenTransformers := [], hostFunctions := [], scopes := [[("a", .int 5)]] }
      (.int 31) rfl rfl⟩

/-!
## C7 — tolerant let parsing
-/

/-- C7: a token sequence beginning with `let` whose remainder is consumed
entirely by the `val`-declaration loop (zero or more well-formed
declarations, no `in ... end`) parses successfully to a `Let` element with a
`Nothing` body. -/
theorem tolerant_let_parse (n : Nat) (ts : List Token)
    (decls : List (String × Option String × Element))
    (h : declsLoop n (Token.letT :: ts) 1 =
        some (decls, (Token.letT :: ts).length)) :
    parse (n + 3) (Token.letT :: ts) = .ok (.letE decls .nothing) := by
  have hnone : ts.get? ts.length = none := by simp
  have hlet : let_scope (n + 1) (Token.letT :: ts) 0 =
      some (.letE decls .nothing, (Token.letT :: ts).length) := by
    simp only [let_scope, gazeNext, List.get?, h, hnone]
  have helem : element (n + 2) (Token.letT :: ts) 0 =
      some (.letE decls .nothing, (Token.letT :: ts).length) := by
    simp only [element, pipe, gazeNext, List.get?, hlet]
  have hdone : elements (n + 2) (Token.letT :: ts) (Token.letT :: ts).length =
      some ([], (Token.letT :: ts).length) := by
    simp [elements, gazeIsComplete]
  have hels : elements (n + 3) (Token.letT :: ts) 0 =
      some ([.letE decls .nothing], (Token.letT :: ts).length) := by
    simp only [elements, gazeIsComplete, helem, hdone]
    simp
  simp only [parse, hels]

/-- C7 (witness): `let val x = 1` parses to
`Let [x = Grouping [1]] Nothing`. -/
theorem tolerant_let_parse_witness :
    parse 23 [Token.letT, Token.val, Token.name "x", Token.equalSign, Token.int 1] =
      .ok (.letE [("x", none, .grouping [.int 1])] .nothing) :=
  tolerant_let_parse 20 [Token.val, Token.name "x", Token.equalSign, Token.int 1]
    [("x", none, .grouping [.int 1])] rfl

/-!
## C10 — host-function registration
-/

/-- The lambda-nesting depth of the curried wrapper's element chain. -/
def LibElement.lambdaDepth : LibElement → Nat
  | .lambda _ _ _ b => 1 + b.lambdaDepth
  | _ => 0

/-- The innermost body at the bottom of an element lambda chain. -/
def LibElement.innermost : LibElement → LibElement
  | .lambda _ _ _ b => b.innermost
  | e => e

/-- The lambda-nesting depth of a value: one for the outer value-level
lambda plus the depth of its element body chain; zero for non-lambdas. -/
def LibValue.lambdaDepth : LibValue T → Nat
  | .lambda _ _ _ b => 1 + b.lambdaDepth
  | _ => 0

/-- The innermost body of a value-level lambda's chain. -/
def LibValue.innermost : LibValue T → Option LibElement
  | .lambda _ _ _ b => some b.innermost
  | _ => none

/-- The fold of `bind_host_function`, started from a lambda accumulator,
wraps once per remaining parameter and keeps the innermost body. -/
theorem bindHostFold_lambda {T : Type} (fullName : String) :
    ∀ (rp : List (String × WanderType)) (ip : String) (ii io : WanderType)
      (ib : LibElement),
    ∃ v : LibValue T,
      bindHostFold fullName rp (some (some (.lambda ip ii io ib))) =
        some (some v) ∧
      v.lambdaDepth = rp.length + (1 + ib.lambdaDepth) ∧
      v.innermost = some ib.innermost := by
  intro rp
  induction rp with
  | nil =>
    intro ip ii io ib
    exact ⟨.lambda ip ii io ib, rfl, by simp [LibValue.lambdaDepth], rfl⟩
  | cons p rest ih =>
    intro ip ii io ib
    obtain ⟨v, hv, hd, hi⟩ := ih p.1 p.2 .any (.lambda ip ii io ib)
    refine ⟨v, hv, ?_, ?_⟩
    · rw [hd]
      simp [LibElement.lambdaDepth]
      omega
    · rw [hi]
      simp [LibElement.innermost]

/-- C10: registering a host function with at least one parameter binds, under
its qualified name, a nested single-parameter curried lambda value of
nesting depth equal to the arity whose innermost body is a `HostFunction`
reference; registering one with an empty parameter list hits
`result.unwrap()` and panics. -/
theorem bind_host_function_curried :
    (∀ (T : Type) (b : Bindings (LibValue T) HostFunctionBinding)
        (f : HostFunctionBinding),
        f.parameters ≠ [] → b.scopes ≠ [] →
        ∃ (v : LibValue T) (b' : Bindings (LibValue T) HostFunctionBinding),
          bind_host_function b f = some b' ∧
          b'.read f.name = some v ∧
          v.lambdaDepth = f.parameters.length ∧
          v.innermost = some (.hostFunction f.name)) ∧
    (∀ (T : Type) (b : Bindings (LibValue T) HostFunctionBinding)
        (f : HostFunctionBinding),
        f.parameters = [] → bind_host_function b f = none) := by
  constructor
  · intro T b f hp hs
    have hrev : f.parameters.reverse ≠ [] := by simpa using hp
    obtain ⟨q, rp', hq⟩ : ∃ q rp', f.parameters.reverse = q :: rp' := by
      cases hx : f.parameters.reverse with
      | nil => exact absurd hx hrev
      | cons q rp' => exact ⟨q, rp', rfl⟩
    obtain ⟨v, hv, hd, hi⟩ :=
      bindHostFold_lambda (T := T) f.name rp' q.1 q.2 .any (.hostFunction f.name)
    have hfold : bindHostFold f.name f.parameters.reverse (some none) =
        some (some v) := by
      rw [hq]
      show bindHostFold f.name rp'
          (some (some (.lambda q.1 q.2 .any (.hostFunction f.name)))) = _
      exact hv
    obtain ⟨scope, hscope⟩ :=
      Option.isSome_iff_exists.mp (List.getLast?_isSome.mpr hs)
    have hbind : Bindings.bind
        (Bindings.mk b.tokenTransformers (alistInsert f.name f b.hostFunctions)
          b.scopes) f.name v =
        some (Bindings.mk b.tokenTransformers
          (alistInsert f.name f b.hostFunctions)
          (b.scopes.dropLast ++ [alistInsert f.name v scope])) := by
      unfold Bindings.bind
      rw [show (Bindings.mk b.tokenTransformers
          (alistInsert f.name f b.hostFunctions) b.scopes).scopes = b.scopes
          from rfl, hscope]
    refine ⟨v, Bindings.mk b.tokenTransformers
      (alistInsert f.name f b.hostFunctions)
      (b.scopes.dropLast ++ [alistInsert f.name v scope]), ?_, ?_, ?_, ?_⟩
    · show (match bindHostFold f.name f.parameters.reverse (some none) with
            | some (some value) =>
              Bindings.bind (Bindings.mk b.tokenTransformers
                (alistInsert f.name f b.hostFunctions) b.scopes) f.name value
            | _ => none) = _
      rw [hfold]
      exact hbind
    · exact read_bind hbind
    · rw [hd]
      have hlen : f.parameters.length = f.parameters.reverse.length := by simp
      rw [hlen, hq]
      simp [LibElement.lambdaDepth]
    · rw [hi]
      simp [LibElement.innermost]
  · intro T b f hp
    unfold bind_host_function
    rw [hp]
    rfl

/-- C10 (witness): a two-parameter host-function binding produces a bound
curried wrapper of depth two; a zero-parameter one panics. -/
theorem bind_host_function_curried_witness :
    (∃ (v : LibValue Unit) (b' : Bindings (LibValue Unit) HostFunctionBinding),
        bind_host_function Bindings.new
          { name := "Bool.and",
            parameters := [("left", .boolean), ("right", .boolean)],
            result := .boolean, doc_string := "" } = some b' ∧
        b'.read "Bool.and" = some v ∧
        v.lambdaDepth = 2 ∧
        v.innermost = some (.hostFunction "Bool.and")) ∧
    bind_host_function (Bindings.new (V := LibValue Unit) (H := HostFunctionBinding))
      { name := "zero", parameters := [], result := .boolean, doc_string := "" } =
      none :=
  ⟨bind_host_function_curried.1 Unit Bindings.new
      { name := "Bool.and",
        parameters := [("left", .boolean), ("right", .boolean)],
        result := .boolean, doc_string := "" }
      (by simp) (by simp [Bindings.new]),
   bind_host_function_curried.2 Unit Bindings.new
      { name := "zero", parameters := [], result := .boolean, doc_string := "" }
      rfl⟩


/-!
## C5 — literal round-trip machinery
-/

/-- The per-character escape `write_string`'s chained replaces amount to. -/
def escChar (c : Char) : List Char :=
  if c = '\\' then ['\\', '\\']
  else if c = '"' then ['\\', '"']
  else if c = '\n' then ['\\', 'n']
  else if c = '\r' then ['\\', 'r']
  else if c = '\t' then ['\\', 't']
  else [c]

/-- `escChar` mapped over a character list. -/
def escapeAll : List Char → List Char
  | [] => []
  | c :: rest => escChar c ++ escapeAll rest

theorem replaceChar_append (t : Char) (r l1 l2 : List Char) :
    replaceChar t r (l1 ++ l2) = replaceChar t r l1 ++ replaceChar t r l2 := by
  induction l1 with
  | nil => simp [replaceChar]
  | cons c cs ih => simp [replaceChar, ih]

/-- The chained single-character replaces of `write_string` are the
per-character escape. -/
theorem writeChain_eq_escapeAll (cs : List Char) :
    replaceChar '\t' ['\\', 't']
      (replaceChar '\r' ['\\', 'r']
        (replaceChar '\n' ['\\', 'n']
          (replaceChar '"' ['\\', '"']
            (replaceChar '\\' ['\\', '\\'] cs)))) = escapeAll cs := by
  induction cs with
  | nil => rfl
  | cons c rest ih =>
    by_cases h1 : c = '\\'
    · subst h1; simp [replaceChar, replaceChar_append, escChar, escapeAll, ih]
    · by_cases h2 : c = '"'
      · subst h2; simp [replaceChar, replaceChar_append, escChar, escapeAll, ih]
      · by_cases h3 : c = '\n'
        · subst h3; simp [replaceChar, replaceChar_append, escChar, escapeAll, ih]
        · by_cases h4 : c = '\r'
          · subst h4; simp [replaceChar, replaceChar_append, escChar, escapeAll, ih]
          · by_cases h5 : c = '\t'
            · subst h5; simp [replaceChar, replaceChar_append, escChar, escapeAll, ih]
            · simp [replaceChar, replaceChar_append, escChar, escapeAll,
                h1, h2, h3, h4, h5, ih]

/-- `write_string` in terms of the per-character escape. -/
theorem write_string_eq (s : String) :
    write_string s = ⟨'"' :: (escapeAll s.data ++ ['"'])⟩ := by
  show String.mk ('"' ::
      (replaceChar '\t' ['\\', 't']
        (replaceChar '\r' ['\\', 'r']
          (replaceChar '\n' ['\\', 'n']
            (replaceChar '"' ['\\', '"']
              (replaceChar '\\' ['\\', '\\'] s.data)))) ++ ['"'])) = _
  rw [writeChain_eq_escapeAll]

/-- The string scan recovers exactly the escaped content produced by
`write_string` (raw, escapes kept) when the source contains no carriage
return, leaving the remaining input after the closing quote. -/
theorem lexStringContent_escapeAll (rest : List Char) :
    ∀ cs : List Char, '\r' ∉ cs →
      lexStringContent (escapeAll cs ++ '"' :: rest) = some (escapeAll cs, rest) := by
  intro cs
  induction cs with
  | nil =>
    intro _
    rw [show escapeAll [] ++ '"' :: rest = '"' :: rest from rfl,
      lexStringContent.eq_def]
    simp [escapeAll]
  | cons c cs ih =>
    intro hcr
    have hcr' : '\r' ∉ cs := fun h => hcr (List.mem_cons_of_mem _ h)
    have hc : c ≠ '\r' := fun h => hcr (h ▸ List.mem_cons_self _ _)
    have ih' := ih hcr'
    by_cases h1 : c = '\\'
    · subst h1
      rw [show escapeAll ('\\' :: cs) ++ '"' :: rest =
          '\\' :: '\\' :: (escapeAll cs ++ '"' :: rest) from by
            simp [escapeAll, escChar], lexStringContent.eq_def]
      simp [escapeAll, escChar, ih']
    · by_cases h2 : c = '"'
      · subst h2
        rw [show escapeAll ('"' :: cs) ++ '"' :: rest =
            '\\' :: '"' :: (escapeAll cs ++ '"' :: rest) from by
              simp [escapeAll, escChar], lexStringContent.eq_def]
        simp [escapeAll, escChar, ih']
      · by_cases h3 : c = '\n'
        · subst h3
          rw [show escapeAll ('\n' :: cs) ++ '"' :: rest =
              '\\' :: 'n' :: (escapeAll cs ++ '"' :: rest) from by
                simp [escapeAll, escChar], lexStringContent.eq_def]
          simp [escapeAll, escChar, ih']
        · by_cases h5 : c = '\t'
          · subst h5
            rw [show escapeAll ('\t' :: cs) ++ '"' :: rest =
                '\\' :: 't' :: (escapeAll cs ++ '"' :: rest) from by
                  simp [escapeAll, escChar], lexStringContent.eq_def]
            simp [escapeAll, escChar, ih']
          · rw [show escapeAll (c :: cs) ++ '"' :: rest =
                c :: (escapeAll cs ++ '"' :: rest) from by
                  simp [escapeAll, escChar, h1, h2, h3, hc, h5],
              lexStringContent.eq_def]
            simp [escapeAll, escChar, h1, h2, h3, hc, h5, ih']

/-- Unescaping the per-character escape recovers the original characters,
from any non-backslash state, ending in a non-backslash state. -/
theorem unescapeLoop_escapeAll :
    ∀ cs : List Char, '\r' ∉ cs → ∀ (res : List Char) (last : Char),
      last ≠ '\\' →
      ∃ last', unescapeLoop (escapeAll cs) (res, last) = some (res ++ cs, last') ∧
        last' ≠ '\\' := by
  intro cs
  induction cs with
  | nil => intro _ res last hlast; exact ⟨last, by simp [escapeAll, unescapeLoop], hlast⟩
  | cons c cs ih =>
    intro hcr res last hlast
    have hcr' : '\r' ∉ cs := fun h => hcr (List.mem_cons_of_mem _ h)
    have hc : c ≠ '\r' := fun h => hcr (h ▸ List.mem_cons_self _ _)
    by_cases h1 : c = '\\'
    · subst h1
      obtain ⟨last', hl, hl'⟩ := ih hcr' (res ++ ['\\']) ' ' (by decide)
      exact ⟨last', by simpa [escapeAll, escChar, unescapeLoop, unescapeStep, hlast] using hl, hl'⟩
    · by_cases h2 : c = '"'
      · subst h2
        obtain ⟨last', hl, hl'⟩ := ih hcr' (res ++ ['"']) '"' (by decide)
        exact ⟨last', by simpa [escapeAll, escChar, unescapeLoop, unescapeStep, hlast] using hl, hl'⟩
      · by_cases h3 : c = '\n'
        · subst h3
          obtain ⟨last', hl, hl'⟩ := ih hcr' (res ++ ['\n']) 'n' (by decide)
          exact ⟨last', by simpa [escapeAll, escChar, unescapeLoop, unescapeStep, hlast] using hl, hl'⟩
        · by_cases h5 : c = '\t'
          · subst h5
            obtain ⟨last', hl, hl'⟩ := ih hcr' (res ++ ['\t']) 't' (by decide)
            exact ⟨last', by simpa [escapeAll, escChar, unescapeLoop, unescapeStep, hlast] using hl, hl'⟩
          · obtain ⟨last', hl, hl'⟩ := ih hcr' (res ++ [c]) c h1
            exact ⟨last',
              by simpa [escapeAll, escChar, unescapeLoop, unescapeStep, hlast,
                h1, h2, h3, hc, h5] using hl, hl'⟩

/-- `unescape_string` inverts the escaped content of `write_string` for
carriage-return-free strings. -/
theorem unescape_string_escapeAll (u : String) (h : '\r' ∉ u.data) :
    unescape_string ⟨escapeAll u.data⟩ = some u := by
  obtain ⟨last', hl, hl'⟩ := unescapeLoop_escapeAll u.data h [] ' ' (by decide)
  unfold unescape_string
  rw [show (String.mk (escapeAll u.data)).data = escapeAll u.data from rfl, hl]
  simp [hl']


theorem parseNatAux_cons (acc : Nat) (c : Char) (rest : List Char) :
    parseNatAux acc (c :: rest) = parseNatAux (acc * 10 + (c.toNat - 48)) rest :=
  rfl

theorem parseNatAux_nil (acc : Nat) : parseNatAux acc [] = acc := rfl

theorem natDecimalAux_zero (n : Nat) : natDecimalAux 0 n = [] := rfl

theorem natDecimalAux_succ (fuel n : Nat) : natDecimalAux (fuel + 1) n =
    if n = 0 then []
    else natDecimalAux fuel (n / 10) ++ [Nat.digitChar (n % 10)] := rfl

theorem parseNatAux_append (l1 l2 : List Char) (acc : Nat) :
    parseNatAux acc (l1 ++ l2) = parseNatAux (parseNatAux acc l1) l2 := by
  induction l1 generalizing acc with
  | nil => rfl
  | cons c cs ih => rw [List.cons_append, parseNatAux_cons, parseNatAux_cons, ih]

theorem digitChar_toNat {d : Nat} (h : d < 10) :
    (Nat.digitChar d).toNat - 48 = d := by
  interval_cases d <;> rfl

theorem digitChar_isDigit {d : Nat} (h : d < 10) :
    (Nat.digitChar d).isDigit = true := by
  interval_cases d <;> rfl

/-- Reading back the digits emitted by `natDecimalAux` recovers the number,
shifting any accumulator by the number of digits. -/
theorem parseNatAux_natDecimalAux (fuel : Nat) :
    ∀ (n acc : Nat), n < 10 ^ fuel →
      parseNatAux acc (natDecimalAux fuel n) =
        acc * 10 ^ (natDecimalAux fuel n).length + n := by
  induction fuel with
  | zero =>
    intro n acc h
    rw [Nat.pow_zero] at h
    have hn : n = 0 := by omega
    subst hn
    rw [natDecimalAux_zero, parseNatAux_nil]
    simp
  | succ fuel ih =>
    intro n acc h
    by_cases hn : n = 0
    · subst hn
      rw [natDecimalAux_succ, if_pos rfl, parseNatAux_nil]
      simp
    · rw [natDecimalAux_succ, if_neg hn]
      have hlt : n / 10 < 10 ^ fuel := by
        rw [Nat.div_lt_iff_lt_mul (by norm_num)]
        calc n < 10 ^ (fuel + 1) := h
        _ = 10 ^ fuel * 10 := by ring
      rw [parseNatAux_append, ih (n / 10) acc hlt, parseNatAux_cons,
        parseNatAux_nil, digitChar_toNat (Nat.mod_lt n (by norm_num))]
      simp only [List.length_append, List.length_singleton, Nat.pow_succ]
      ring_nf
      omega

theorem parseNatAux_natDecimal (n : Nat) :
    parseNatAux 0 (natDecimal n) = n := by
  by_cases hn : n = 0
  · subst hn; rfl
  · unfold natDecimal
    rw [if_neg hn,
      parseNatAux_natDecimalAux (n + 1) n 0 (Nat.lt_of_lt_of_le
        (Nat.lt_pow_self (by norm_num) n) (Nat.pow_le_pow_right (by norm_num)
          (Nat.le_succ n)))]
    simp

theorem natDecimalAux_digits (fuel : Nat) :
    ∀ (n : Nat) (c : Char), c ∈ natDecimalAux fuel n → c.isDigit = true := by
  induction fuel with
  | zero => intro n c h; rw [natDecimalAux_zero] at h; simp at h
  | succ fuel ih =>
    intro n c h
    rw [natDecimalAux_succ] at h
    by_cases hn : n = 0
    · simp [hn] at h
    · rw [if_neg hn] at h
      rcases List.mem_append.mp h with h' | h'
      · exact ih _ _ h'
      · rw [List.mem_singleton.mp h']
        exact digitChar_isDigit (Nat.mod_lt n (by norm_num))

theorem natDecimal_digits (n : Nat) :
    ∀ c ∈ natDecimal n, c.isDigit = true := by
  intro c h
  unfold natDecimal at h
  by_cases hn : n = 0
  · rw [if_pos hn] at h; rw [List.mem_singleton.mp h]; rfl
  · rw [if_neg hn] at h; exact natDecimalAux_digits (n + 1) n c h

theorem natDecimal_ne_nil (n : Nat) : natDecimal n ≠ [] := by
  unfold natDecimal
  by_cases hn : n = 0
  · simp [hn]
  · rw [if_neg hn, natDecimalAux_succ, if_neg hn]
    simp

theorem takeWhile_all {p : Char → Bool} :
    ∀ {l : List Char}, (∀ c ∈ l, p c = true) →
      l.takeWhile p = l ∧ l.dropWhile p = [] := by
  intro l
  induction l with
  | nil => intro _; simp
  | cons c cs ih =>
    intro h
    have hc : p c = true := h c (List.mem_cons_self _ _)
    have hcs := ih fun c' h' => h c' (List.mem_cons_of_mem _ h')
    simp [List.takeWhile, List.dropWhile, hc, hcs.1, hcs.2]


theorem digit_not_ws {c : Char} (h : c.isDigit = true) : isWsChar c = false := by
  unfold isWsChar
  by_cases h1 : c = ' '
  · subst h1; exact absurd h (by decide)
  by_cases h2 : c = '\n'
  · subst h2; exact absurd h (by decide)
  by_cases h3 : c = '\t'
  · subst h3; exact absurd h (by decide)
  by_cases h4 : c = '\r'
  · subst h4; exact absurd h (by decide)
  simp [h1, h2, h3, h4]

theorem digit_ne_quote {c : Char} (h : c.isDigit = true) : c ≠ '"' := by
  rintro rfl; exact absurd h (by decide)

theorem digit_ne_minus {c : Char} (h : c.isDigit = true) : c ≠ '-' := by
  rintro rfl; exact absurd h (by decide)

theorem digit_ne_gt {c : Char} (h : c.isDigit = true) : c ≠ '>' := by
  rintro rfl; exact absurd h (by decide)

theorem tokenize_nil (fuel : Nat) : tokenize_and_filter (fuel + 1) [] = .ok [] :=
  rfl

/-- Lexing a bare digit run at the end of the input yields a single integer
token carrying the digits' value. -/
theorem tokenize_digits (fuel : Nat) (d : Char) (ds : List Char)
    (hd : d.isDigit = true) (hds : ∀ c ∈ d :: ds, c.isDigit = true) :
    tokenize_and_filter (fuel + 2) (d :: ds) =
      .ok [.int (parseNatAux 0 (d :: ds) : Nat)] := by
  obtain ⟨htake, hdrop⟩ := takeWhile_all (p := Char.isDigit) hds
  have hds' : ∀ c ∈ ds, c.isDigit = true :=
    fun c hc => hds c (List.mem_cons_of_mem _ hc)
  obtain ⟨htake', hdrop'⟩ := takeWhile_all (p := Char.isDigit) hds'
  rw [tokenize_and_filter.eq_def]
  simp only [List.dropWhile, digit_not_ws hd]
  simp only [digit_ne_quote hd, digit_ne_minus hd, digit_ne_gt hd, hd,
    if_false, if_true, reduceIte]
  rw [htake, hdrop', tokenize_nil]

/-- Lexing a minus sign followed by a digit run at the end of the input
yields a single negative integer token. -/
theorem tokenize_neg_digits (fuel : Nat) (d : Char) (ds : List Char)
    (hd : d.isDigit = true) (hds : ∀ c ∈ d :: ds, c.isDigit = true) :
    tokenize_and_filter (fuel + 2) ('-' :: d :: ds) =
      .ok [.int (-(parseNatAux 0 (d :: ds) : Nat))] := by
  obtain ⟨htake, hdrop⟩ := takeWhile_all (p := Char.isDigit) hds
  have hds' : ∀ c ∈ ds, c.isDigit = true :=
    fun c hc => hds c (List.mem_cons_of_mem _ hc)
  obtain ⟨htake', hdrop'⟩ := takeWhile_all (p := Char.isDigit) hds'
  rw [tokenize_and_filter.eq_def]
  simp only [List.dropWhile, show isWsChar '-' = false from rfl]
  simp only [show ('-' : Char) ≠ '"' from by decide, digit_ne_gt hd, hd,
    if_false, if_true, reduceIte]
  rw [htake, hdrop', tokenize_nil]

/-- Lexing the output of `write_string` yields a single string token whose
raw content is the escaped character sequence. -/
theorem tokenize_write_string (fuel : Nat) (u : String) (h : '\r' ∉ u.data) :
    tokenize_and_filter (fuel + 2) (write_string u).data =
      .ok [.string ⟨escapeAll u.data⟩] := by
  rw [write_string_eq]
  rw [show (String.mk ('"' :: (escapeAll u.data ++ ['"']))).data =
      '"' :: (escapeAll u.data ++ ['"']) from rfl]
  rw [tokenize_and_filter.eq_def]
  simp only [List.dropWhile, show isWsChar '"' = false from rfl, reduceIte]
  rw [show escapeAll u.data ++ ['"'] = escapeAll u.data ++ '"' :: [] from rfl,
    lexStringContent_escapeAll [] u.data h]
  simp [tokenize_nil]


/-- Lexing the rendering of an integer recovers exactly that integer
token. -/
theorem tokenize_write_integer (fuel : Nat) (i : Int) :
    tokenize_and_filter (fuel + 2) (write_integer i).data = .ok [.int i] := by
  by_cases hneg : i < 0
  · rw [show (write_integer i).data = '-' :: natDecimal i.natAbs from by
      unfold write_integer; rw [if_pos hneg]]
    obtain ⟨d, ds, hd⟩ : ∃ d ds, natDecimal i.natAbs = d :: ds := by
      cases hx : natDecimal i.natAbs with
      | nil => exact absurd hx (natDecimal_ne_nil _)
      | cons d ds => exact ⟨d, ds, rfl⟩
    have hds : ∀ c ∈ d :: ds, c.isDigit = true := by
      rw [← hd]; exact natDecimal_digits _
    rw [hd, tokenize_neg_digits fuel d ds (hds d (List.mem_cons_self _ _)) hds,
      ← hd, parseNatAux_natDecimal]
    rw [show (-(i.natAbs : Int)) = i by omega]
  · rw [show (write_integer i).data = natDecimal i.natAbs from by
      unfold write_integer; rw [if_neg hneg]]
    obtain ⟨d, ds, hd⟩ : ∃ d ds, natDecimal i.natAbs = d :: ds := by
      cases hx : natDecimal i.natAbs with
      | nil => exact absurd hx (natDecimal_ne_nil _)
      | cons d ds => exact ⟨d, ds, rfl⟩
    have hds : ∀ c ∈ d :: ds, c.isDigit = true := by
      rw [← hd]; exact natDecimal_digits _
    rw [hd, tokenize_digits fuel d ds (hds d (List.mem_cons_self _ _)) hds,
      ← hd, parseNatAux_natDecimal]
    rw [show ((i.natAbs : Int)) = i by omega]

/-- The pipeline after lexing, on a single boolean token. -/
theorem runLit_of_tokens_bool (T : Type) (s : String) (b : Bool)
    (htok : tokenize_and_filter (s.data.length + 1) s.data =
      .ok [Token.boolean b]) :
    runLit T s = .ok (.bool b) := by
  unfold runLit
  rw [htok]
  rfl

/-- The pipeline after lexing, on a single integer token. -/
theorem runLit_of_tokens_int (T : Type) (s : String) (i : Int)
    (htok : tokenize_and_filter (s.data.length + 1) s.data = .ok [Token.int i]) :
    runLit T s = .ok (.int i) := by
  unfold runLit
  rw [htok]
  rfl

/-- Evaluating a string-literal expression applies `unescape_string` to the
raw content. -/
theorem eval_string_expr {T : Type} (w u : String) (hun : unescape_string w = some u)
    (n : Nat) (env : Bindings (WanderValue T) (HostFunction T)) :
    eval (n + 1) (.string w) env = .ok (env, .string u) := by
  show (match unescape_string w with
        | some s => PRes.ok (env, WanderValue.string s)
        | none => PRes.panic) = _
  rw [hun]

/-- The pipeline after lexing, on a single string token: evaluation applies
`unescape_string` to the raw token content. -/
theorem runLit_of_tokens_string (T : Type) (s : String) (w u : String)
    (htok : tokenize_and_filter (s.data.length + 1) s.data =
      .ok [Token.string w])
    (hun : unescape_string w = some u) :
    runLit T s = .ok (.string u) := by
  have he : eval 50 (.string w)
      (Bindings.new (V := WanderValue T) (H := HostFunction T)) =
      .ok (Bindings.new, .string u) := eval_string_expr w u hun 49 _
  unfold runLit
  rw [htok]
  show (match eval 50 (.string w)
          (Bindings.new (V := WanderValue T) (H := HostFunction T)) with
        | .ok (_, value) => PRes.ok value
        | .err e => PRes.err e
        | .panic => PRes.panic
        | .outOfFuel => PRes.outOfFuel) = _
  rw [he]


theorem write_integer_ne_nil (i : Int) : (write_integer i).data ≠ [] := by
  unfold write_integer
  by_cases hneg : i < 0
  · rw [if_pos hneg]; simp
  · rw [if_neg hneg]
    exact natDecimal_ne_nil _

/-- C5 (counterexample): the string literal containing a raw carriage return
runs successfully, renders through `write_string` to a `\r` escape, and the
re-run fails — the spec-modelled lexer rejects the escape, and the in-source
`unescape_string` would hit its unimplemented-escape `todo!()` on the same
content — so `run(render(run(s)))` does not reproduce `run(s)`. -/
theorem carriage_return_breaks_round_trip :
    runLit Unit "\"a\rb\"" = .ok (.string "a\rb") ∧
    renderLiteral (WanderValue.string (T := Unit) "a\rb") =
      some (write_string "a\rb") ∧
    runLit Unit (write_string "a\rb") =
      .err ⟨"unterminated string or invalid escape"⟩ ∧
    unescape_string "a\\rb" = none :=
  ⟨rfl, rfl, rfl, rfl⟩

/-- C5 (amended): for every boolean, integer, and string literal source —
characterised by its lex result being the single corresponding literal
token — the run produces the literal's value, and re-running the rendered
value reproduces it, **provided a string value contains no carriage
return**: rendering escapes `\r` but the unescape side does not implement
it, so carriage-return strings do not round-trip. -/
theorem literal_round_trip :
    (∀ (T : Type) (s : String) (b : Bool),
        tokenize_and_filter (s.data.length + 1) s.data =
          .ok [Token.boolean b] →
        runLit T s = .ok (.bool b)) ∧
    (∀ (T : Type) (b : Bool) (rendered : String),
        renderLiteral (WanderValue.bool (T := T) b) = some rendered →
        runLit T rendered = .ok (.bool b)) ∧
    (∀ (T : Type) (s : String) (i : Int),
        tokenize_and_filter (s.data.length + 1) s.data = .ok [Token.int i] →
        runLit T s = .ok (.int i)) ∧
    (∀ (T : Type) (i : Int) (rendered : String),
        renderLiteral (WanderValue.int (T := T) i) = some rendered →
        runLit T rendered = .ok (.int i)) ∧
    (∀ (T : Type) (s : String) (w u : String),
        tokenize_and_filter (s.data.length + 1) s.data =
          .ok [Token.string w] →
        unescape_string w = some u →
        runLit T s = .ok (.string u)) ∧
    (∀ (T : Type) (u : String) (rendered : String), '\r' ∉ u.data →
        renderLiteral (WanderValue.string (T := T) u) = some rendered →
        runLit T rendered = .ok (.string u)) := by
  refine ⟨?_, ?_, ?_, ?_, ?_, ?_⟩
  · exact runLit_of_tokens_bool
  · intro T b rendered hr
    have : rendered = if b then "true" else "false" := by
      cases b <;> simpa [renderLiteral] using hr.symm
    subst this
    cases b <;> rfl
  · exact runLit_of_tokens_int
  · intro T i rendered hr
    have hrend : rendered = write_integer i := by
      simpa [renderLiteral] using hr.symm
    subst hrend
    have hlen : (write_integer i).data.length + 1 =
        ((write_integer i).data.length - 1) + 2 := by
      have h1 : 1 ≤ (write_integer i).data.length :=
        List.length_pos.mpr (write_integer_ne_nil i)
      omega
    refine runLit_of_tokens_int T _ i ?_
    rw [hlen]
    exact tokenize_write_integer _ i
  · exact runLit_of_tokens_string
  · intro T u rendered hcr hr
    have hrend : rendered = write_string u := by
      simpa [renderLiteral] using hr.symm
    subst hrend
    have h1 : 1 ≤ (write_string u).data.length := by
      rw [write_string_eq]
      simp
    have hlen : (write_string u).data.length + 1 =
        ((write_string u).data.length - 1) + 2 := by omega
    refine runLit_of_tokens_string T _ ⟨escapeAll u.data⟩ u ?_
      (unescape_string_escapeAll u hcr)
    rw [hlen]
    exact tokenize_write_string _ u hcr

/-- C5 (witness): the round-trip theorem applied at concrete literals, with
an escaped string, a negative integer and a boolean. -/
theorem literal_round_trip_witness :
    runLit Unit "\"hi,\\nthere\"" = .ok (.string "hi,\nthere") ∧
    runLit Unit (write_string "hi,\nthere") = .ok (.string "hi,\nthere") ∧
    runLit Unit "-42" = .ok (.int (-42)) ∧
    runLit Unit (write_integer (-42)) = .ok (.int (-42)) ∧
    runLit Unit "true" = .ok (.bool true) :=
  ⟨literal_round_trip.2.2.2.2.1 Unit "\"hi,\\nthere\"" "hi,\\nthere"
      "hi,\nthere" rfl rfl,
   literal_round_trip.2.2.2.2.2 Unit "hi,\nthere" (write_string "hi,\nthere")
      (by decide) rfl,
   literal_round_trip.2.2.1 Unit "-42" (-42) rfl,
   literal_round_trip.2.2.2.1 Unit (-42) (write_integer (-42)) rfl,
   literal_round_trip.1 Unit "true" true rfl⟩

end Wander
